import Mathlib

/-!
Shallow embedding of `src/scripts/BehavPreprocess.py` (class `BehavPreprocess`,
constructor `__init__`), the single-pass EEG preprocessing pipeline of the
`opto_mouse` repository.

Modelling conventions:
* NumPy float entries are modelled by `Val`, rationals extended with IEEE-style
  `nan`, `inf` and `neginf`; arithmetic propagates the special values the way
  NumPy does (`inf - inf = nan`, `0 * inf = nan`, division by zero produces
  signed infinities or `nan`, comparisons against `nan` are false).
* A 2-d NumPy array of shape (rows, cols) is a `Mat := List (List Val)`, the
  outer list being the rows.  NumPy arrays are never ragged; theorems that need
  rectangularity state it as an explicit hypothesis (NumPy raises where the
  list model would silently truncate).
* External primitives that the pipeline merely orchestrates
  (`savgol_filter`, `find_wav`, `skimage.filters.threshold_otsu`, `np.log10`)
  are parameters of the embedding, collected in `Ext`.
* Python object identity, where it matters (the smoothing pass-through alias
  and the normalized/raw wavelet-list alias), is modelled with explicit heaps
  of objects addressed by natural-number references, and in-place updates are
  `List.set` on the heap.
* A Python `assert` failure (a fatal configuration or invariant error) makes
  the run return `Option.none` / `Except.error`.
-/

namespace BehavPre

/-- Extended value: a rational, or one of the IEEE special values NaN, +inf,
-inf, as carried by NumPy float arrays. -/
inductive Val where
  | fin : ℚ → Val
  | nan : Val
  | inf : Val
  | neginf : Val
deriving DecidableEq, Repr

/-- Models `np.isnan(x) or np.isinf(x)`: the values scrubbed to 0 at the end of the
pipeline (line 192 of the source). -/
def Val.isBad : Val → Bool
  | .fin _ => false
  | _ => true

/-- IEEE negation. -/
def Val.neg : Val → Val
  | .fin a => .fin (-a)
  | .nan => .nan
  | .inf => .neginf
  | .neginf => .inf

/-- IEEE addition on extended values (`inf + (-inf) = nan`). -/
def Val.add : Val → Val → Val
  | .nan, _ => .nan
  | _, .nan => .nan
  | .inf, .neginf => .nan
  | .neginf, .inf => .nan
  | .inf, _ => .inf
  | _, .inf => .inf
  | .neginf, _ => .neginf
  | _, .neginf => .neginf
  | .fin a, .fin b => .fin (a + b)

/-- IEEE subtraction. -/
def Val.sub (x y : Val) : Val := x.add y.neg

/-- IEEE multiplication (`0 * inf = nan`). -/
def Val.mul : Val → Val → Val
  | .nan, _ => .nan
  | _, .nan => .nan
  | .fin a, .fin b => .fin (a * b)
  | .inf, .fin a => if 0 < a then .inf else if a < 0 then .neginf else .nan
  | .fin a, .inf => if 0 < a then .inf else if a < 0 then .neginf else .nan
  | .neginf, .fin a => if 0 < a then .neginf else if a < 0 then .inf else .nan
  | .fin a, .neginf => if 0 < a then .neginf else if a < 0 then .inf else .nan
  | .inf, .inf => .inf
  | .inf, .neginf => .neginf
  | .neginf, .inf => .neginf
  | .neginf, .neginf => .inf

/-- IEEE division as performed by NumPy (`x/0` yields a signed infinity for
`x ≠ 0` and `nan` for `0/0`, `inf/inf = nan`, `x/inf = 0`). -/
def Val.div : Val → Val → Val
  | .nan, _ => .nan
  | _, .nan => .nan
  | .fin a, .fin b =>
      if b = 0 then (if 0 < a then .inf else if a < 0 then .neginf else .nan)
      else .fin (a / b)
  | .fin _, .inf => .fin 0
  | .fin _, .neginf => .fin 0
  | .inf, .fin a => if a < 0 then .neginf else .inf
  | .neginf, .fin a => if a < 0 then .inf else .neginf
  | .inf, .inf => .nan
  | .inf, .neginf => .nan
  | .neginf, .inf => .nan
  | .neginf, .neginf => .nan

/-- IEEE strict comparison: any comparison against NaN is false. -/
def Val.lt : Val → Val → Bool
  | .nan, _ => false
  | _, .nan => false
  | .fin a, .fin b => decide (a < b)
  | .neginf, .neginf => false
  | .neginf, _ => true
  | _, .neginf => false
  | .inf, _ => false
  | .fin _, .inf => true

/-- Binary maximum as reduced by `np.max`: NaN is propagated. -/
def Val.max2 (x y : Val) : Val :=
  if x = .nan ∨ y = .nan then .nan else if x.lt y then y else x

/-- Models `np.sum` over a vector (sum of an empty vector is 0). -/
def valSum (l : List Val) : Val := l.foldl Val.add (.fin 0)

/-- Models `np.mean` over a vector (the mean of an empty vector is `0/0 = nan`,
matching NumPy's warning-plus-nan behaviour). -/
def valMean (l : List Val) : Val := (valSum l).div (.fin (l.length : ℚ))

/-- Models `np.var` over a vector: mean of squared deviations from the mean. -/
def valVar (l : List Val) : Val :=
  valMean (l.map (fun x => (x.sub (valMean l)).mul (x.sub (valMean l))))

/-- Models `np.max` over a vector (reduction over an empty axis is an error in
NumPy; modelled as `nan`). -/
def colMax : List Val → Val
  | [] => .nan
  | x :: xs => xs.foldl Val.max2 x

/-- A 2-d array: list of rows. -/
abbrev Mat := List (List Val)

/-- Models `shape[0]` of a 2-d array. -/
def nRows (m : Mat) : ℕ := m.length

/-- Models `shape[1]` of a 2-d array (length of the first row; for the rectangular
arrays NumPy manipulates this is the column count). -/
def nCols (m : Mat) : ℕ := (m.headD []).length

/-- Column `t` of a matrix. -/
def colAt (m : Mat) (t : ℕ) : List Val := m.map (fun r => r.getD t (.fin 0))

/-- Models `np.transpose` of a rectangular matrix. -/
def trM (m : Mat) : Mat := (List.range (nCols m)).map (colAt m)

/-- The columns of a matrix, as a list of vectors (used for the per-frame
`axis=0` reductions). -/
def colsOf (m : Mat) : List (List Val) := (List.range (nCols m)).map (colAt m)

/-- A matrix is rectangular: every row has the length of the first row. -/
def rectMat (m : Mat) : Bool := m.all (fun r => r.length = nCols m)

/-- Python `range(a, b)` (empty when `b ≤ a`). -/
def pyRange (a b : ℕ) : List ℕ := List.range' a (b - a)

/-- Does `pat` occur at the head of the second list? -/
def leadMatch : List Char → List Char → Bool
  | [], _ => true
  | _ :: _, [] => false
  | a :: as, b :: bs => a = b && leadMatch as bs

/-- Substring test: does `pat` occur inside `s`?  Models Python's
`pat in s` on strings. -/
def listInfixCheck (pat : List Char) : List Char → Bool
  | [] => decide (pat = [])
  | c :: cs => leadMatch pat (c :: cs) || listInfixCheck pat cs

/-- Python `folder_name in experiment_path` (substring containment). -/
def strContains (pat s : String) : Bool := listInfixCheck pat.toList s.toList

/-- Modelled from the spec: the label enum provided by the `behav_annotation`
module, which is not under `src/` — "categorical enum with values including
NONE (default/background), REST, BOUNDARY, and one or more
ground-truth-derived behavior classes" (spec §3).  The distinct constructors
model the distinct integer `.value` codes the arrays carry. -/
inductive Behav where
  | none : Behav
  | rest : Behav
  | boundary : Behav
  | gt : ℕ → Behav
deriving DecidableEq, Repr

/-- One experiment's CSV source: its path and the per-electrode full-length
series (the columns named by `headband_setup.electrode_names()`, in order). -/
structure ExpData where
  path : String
  table : List (List Val)
deriving Inhabited

/-- Models `int(exp_dict.size/len(exp_dict.keys()))`: the number of rows of the
rectangular CSV frame (for a rectangular table, total cells over column
count is the common column length). -/
def ExpData.len (e : ExpData) : ℕ := (e.table.headD []).length

/-- One entry of `behav_annotation.label_gt_list`:
`((offset_gt_start, offset_gt_end), label_gt_behav, folder_name)`. -/
structure GTEntry where
  start : ℕ
  stop : ℕ
  label : Behav
  folder : String

/-- The external primitives the pipeline orchestrates (spec: out-of-scope
collaborators).  `nElec` is `len(headband_setup.electrode_names())`;
`savgol` is `scipy.signal.savgol_filter(·, 5, 4)` on one channel;
`findWav` is `find_wavelets.find_wav(data, chan, omega0, fps, fmin, fmax)`;
`otsu` is `skimage.filters.threshold_otsu(values, nbins)`;
`log10` is `np.log10` on one entry. -/
structure Ext where
  nElec : ℕ
  savgol : List Val → List Val
  findWav : Mat → ℕ → ℕ → ℕ → ℕ → ℕ → Mat × List ℚ
  otsu : List Val → ℕ → Val
  log10 : Val → Val

/-- The constructor's configuration surface with its defaults (source line 37). -/
structure Config where
  ti : ℕ := 0
  tf : Option ℕ := Option.none
  samp_rate : ℕ := 220
  min_frequency : ℕ := 1
  max_frequency : ℕ := 50
  num_channels : ℕ := 30
  bound_len : ℕ := 50
  clip_len : ℕ := 100
  smooth : Bool := true
  mean_center : Bool := true
  normalize : Bool := true
  no_bounds : Bool := false
  dump_rest : Bool := false

/-- Models `tf = exp_len` when `tf is None`, else `tf = min(tf, exp_len)`
(source lines 65-68). -/
def resolveTf (tf : Option ℕ) (len : ℕ) : ℕ :=
  match tf with
  | Option.none => len
  | Option.some t => min t len

/-- The sequence of per-experiment resolved `tf` values produced by the
reading loop (each iteration's `tf` feeds the next). -/
def resolveSeq (tf : Option ℕ) : List ℕ → List ℕ
  | [] => []
  | n :: ns => resolveTf tf n :: resolveSeq (Option.some (resolveTf tf n)) ns

/-- Models `np.zeros((len(electrodes), tf-ti))` filled row by row with
`exp_dict[electrodes[i]][ti:tf]` (source lines 70-72); pandas positional
slicing clamps to the series length. -/
def readMat (nElec ti tf : ℕ) (e : ExpData) : Mat :=
  (List.range nElec).map (fun i => ((e.table.getD i []).drop ti).take (tf - ti))

/-- The reading loop (source lines 63-72): resolve `tf`, assert `tf > ti`,
then allocate the per-experiment matrix.  On assertion failure the exception
carries the matrices already allocated at that point (the Python object state
when the `AssertionError` fires). -/
def readLoop (nElec ti : ℕ) (tf : Option ℕ) : List ExpData → Except (List Mat) (List Mat)
  | [] => Except.ok []
  | e :: es =>
    if ti < resolveTf tf e.len then
      match readLoop nElec ti (Option.some (resolveTf tf e.len)) es with
      | Except.ok ms => Except.ok (readMat nElec ti (resolveTf tf e.len) e :: ms)
      | Except.error ms => Except.error (readMat nElec ti (resolveTf tf e.len) e :: ms)
    else Except.error []

/-- The smoothing loop body: `np.zeros_like` rewritten row by row with the
smoothing filter (source lines 88-90). -/
def savgolMat (sg : List Val → List Val) (m : Mat) : Mat := m.map sg

/-- Models `row -= np.mean(row)` (source line 100). -/
def centerRow (r : List Val) : List Val := r.map (fun x => x.sub (valMean r))

/-- Mean-centering every channel of one experiment (source lines 98-100). -/
def centerMat (m : Mat) : Mat := m.map centerRow

/-- The heap of matrix objects during the smoothing/centering stages,
together with the references held by `self.exp_eeg_list` and
`self.smooth_exp_list`.  This makes the Python aliasing of line 93
(`self.smooth_exp_list = self.exp_eeg_list`) and the in-place `-=` of
line 100 explicit. -/
structure SCState where
  heap : List Mat
  eegRefs : List ℕ
  smoothRefs : List ℕ

/-- Initial state: the freshly read matrices, referenced by
`self.exp_eeg_list`; `self.smooth_exp_list` is still the empty list. -/
def scInit (ms : List Mat) : SCState :=
  ⟨ms, List.range ms.length, []⟩

/-- Source lines 85-93: when `smooth`, fresh smoothed matrices are allocated
and `self.smooth_exp_list` references them; otherwise
`self.smooth_exp_list = self.exp_eeg_list` shares the same references. -/
def smoothStage (sg : List Val → List Val) (smooth : Bool) (s : SCState) : SCState :=
  if smooth then
    { heap := s.heap ++ s.eegRefs.map (fun r => savgolMat sg (s.heap.getD r [])),
      eegRefs := s.eegRefs,
      smoothRefs := List.range' s.heap.length s.eegRefs.length }
  else
    { s with smoothRefs := s.eegRefs }

/-- Source lines 96-100: when `mean_center`, each matrix referenced by
`self.smooth_exp_list` is mean-centered in place on the heap. -/
def centerStage (mc : Bool) (s : SCState) : SCState :=
  if mc then
    { s with heap := s.smoothRefs.foldl (fun h r => h.set r (centerMat (h.getD r []))) s.heap }
  else s

/-- Frame (column-wise) max-normalization of one spectral tensor:
`exp / exp.max(axis=0)` (source line 126). -/
def normalizeMat (m : Mat) : Mat :=
  let maxs := (trM m).map colMax
  m.map (fun row => List.zipWith Val.div row maxs)

/-- The wavelet-list object state for the normalization stage: a heap of
list objects, with the references held by `self.wav_exp_list` and
`self.norm_wav_exp_list`. -/
structure NormSt where
  lheap : List (List Mat)
  wavRef : ℕ
  normRef : ℕ

/-- Source lines 123-126: `self.norm_wav_exp_list = self.wav_exp_list`
binds both attributes to the same list object; when `normalize`, slot
`exp_idx` of that object is reassigned to the normalized tensor computed
from the slot's current value (read through `self.wav_exp_list`). -/
def normStage (normalize : Bool) (wavMats : List Mat) : NormSt :=
  let wavRef : ℕ := 0
  let normRef : ℕ := wavRef
  let lheap0 : List (List Mat) := [wavMats]
  if normalize then
    { lheap := (List.range wavMats.length).foldl
        (fun lh i => lh.set normRef ((lh.getD normRef []).set i
          (normalizeMat ((lh.getD wavRef []).getD i [])))) lheap0,
      wavRef := wavRef, normRef := normRef }
  else ⟨lheap0, wavRef, normRef⟩

/-- One ground-truth entry applied to the frame with midpoint `mid`
(source lines 147-153): skip unless the folder selector occurs in the
experiment path, the midpoint lies in `[start, stop)`, and the midpoint is
more than `clip_len // 3` from both interval edges; when all hold, the
entry's label overwrites the current one. -/
def gtStep (clip_len : ℕ) (path : String) (mid : ℕ) (cur : Behav) (g : GTEntry) : Behav :=
  if strContains g.folder path then
    if g.start ≤ mid ∧ mid < g.stop then
      if min (mid - g.start) (g.stop - mid) > clip_len / 3 then g.label else cur
    else cur
  else cur

/-- The inner loop over `label_gt_list` for one midpoint: later entries
overwrite earlier ones. -/
def gtPassMid (gtList : List GTEntry) (clip_len : ℕ) (path : String) (mid : ℕ)
    (cur : Behav) : Behav :=
  gtList.foldl (gtStep clip_len path mid) cur

/-- The ground-truth pass over one experiment (source lines 142-153):
`for offset in range(clip_len // 2, exp_eeg.shape[0] - clip_len // 2)` —
note that `shape[0]` of the electrode×time matrix is the electrode count —
with `offset_mid = offset + clip_len // 2` the written position. -/
def gtPassExp (gtList : List GTEntry) (clip_len nElecRows : ℕ) (path : String)
    (labels : List Behav) : List Behav :=
  (pyRange (clip_len / 2) (nElecRows - clip_len / 2)).foldl
    (fun ls o =>
      ls.set (o + clip_len / 2)
        (gtPassMid gtList clip_len path (o + clip_len / 2)
          (ls.getD (o + clip_len / 2) Behav.none)))
    labels

/-- Models `d[rest_mask] = Behav.REST.value` (source line 161).  NumPy requires the
boolean mask length to equal the array length (it raises otherwise); the
list model zips them. -/
def restApply (mask : List Bool) (ls : List Behav) : List Behav :=
  List.zipWith (fun b l => if b then Behav.rest else l) mask ls

/-- Models `d[bound_mask] = Behav.BOUNDARY.value` (source line 170). -/
def boundApply (mask : List Bool) (ls : List Behav) : List Behav :=
  List.zipWith (fun b l => if b then Behav.boundary else l) mask ls

/-- The boundary mask (source lines 166-168): ones on `[:bound_len]` and on
`[-bound_len:]`.  Python's `v[-k:]` selects the last `k` entries except when
`k = 0`, where `v[-0:]` is the whole vector. -/
def boundaryMaskV (bound_len n : ℕ) : List Bool :=
  (List.range n).map (fun j =>
    decide (j < bound_len) || (if bound_len = 0 then true else decide (n - bound_len ≤ j)))

/-- The inclusion mask (source lines 184-188): all-true, then AND out
REST-labeled frames when `dump_rest`, then AND out BOUNDARY-labeled frames
when `no_bounds`. -/
def dataMask (dump_rest no_bounds : Bool) (labels : List Behav) : List Bool :=
  let m0 := labels.map (fun _ => true)
  let m1 := if dump_rest then
      List.zipWith (fun m l => m && decide (l ≠ Behav.rest)) m0 labels
    else m0
  if no_bounds then
    List.zipWith (fun m l => m && decide (l ≠ Behav.boundary)) m1 labels
  else m1

/-- Boolean-mask selection along a vector (`v[mask]`); NumPy requires equal
lengths and returns a fresh array. -/
def applyMask (l : List α) (mask : List Bool) : List α :=
  ((l.zip mask).filter (fun p => p.2)).map (fun p => p.1)

/-- Models `np.concatenate(ms, axis=1)` for matrices sharing a common row count. -/
def concatCols (ms : List Mat) : Mat :=
  (List.range (nRows (ms.headD []))).map (fun r => (ms.map (fun m => m.getD r [])).flatten)

/-- The final NaN/Inf scrub (source line 192): bad entries of the fresh
masked copy become 0. -/
def scrubMat (m : Mat) : Mat :=
  m.map (fun r => r.map (fun x => if x.isBad then Val.fin 0 else x))

/-- Source lines 136-141 then 142-153: fresh all-NONE label vectors, one per
experiment, then the ground-truth pass applied to each
(`for exp_idx in range(len(self.data_behav_concat))`). -/
def gtStageL (gtList : List GTEntry) (clip_len : ℕ) (paths : List String)
    (eegMats : List Mat) : List (List Behav) :=
  (List.range eegMats.length).map (fun i =>
    gtPassExp gtList clip_len (nRows (eegMats.getD i [])) (paths.getD i "")
      (List.replicate (nCols (eegMats.getD i [])) Behav.none))

/-- Source lines 156-160: the per-experiment rest masks,
`frame_amp < threshold_otsu(frame_amp, nbins=len(path)//2)`
(`for exp_idx, experiment in enumerate(self.exp_path_list)`). -/
def restMasksOf (otsu : List Val → ℕ → Val) (paths : List String)
    (frameAmp : List (List Val)) : List (List Bool) :=
  (List.range paths.length).map (fun i =>
    let amp := frameAmp.getD i []
    amp.map (fun a => a.lt (otsu amp ((paths.getD i "").length / 2))))

/-- Source line 161: `d[rest_mask] = Behav.REST.value` for each experiment the
rest loop visits. -/
def restStageL (restMasks : List (List Bool)) (npaths : ℕ)
    (labels : List (List Behav)) : List (List Behav) :=
  (List.range labels.length).map (fun i =>
    if i < npaths then restApply (restMasks.getD i []) (labels.getD i [])
    else labels.getD i [])

/-- Source lines 164-168: the per-experiment boundary masks over the
amplitude-vector length. -/
def boundMasksOf (bound_len : ℕ) (paths : List String)
    (frameAmp : List (List Val)) : List (List Bool) :=
  (List.range paths.length).map (fun i =>
    boundaryMaskV bound_len (frameAmp.getD i []).length)

/-- Source line 170: `d[bound_mask] = Behav.BOUNDARY.value` for each
experiment the boundary loop visits. -/
def boundStageL (boundMasks : List (List Bool)) (npaths : ℕ)
    (labels : List (List Behav)) : List (List Behav) :=
  (List.range labels.length).map (fun i =>
    if i < npaths then boundApply (boundMasks.getD i []) (labels.getD i [])
    else labels.getD i [])

/-- Everything the constructor leaves on `self` that the claims mention:
the attribute names follow the source (including the `experminet_index`
typo).  `eeg_refs`/`smooth_refs` and `wav_ref`/`norm_ref` expose the object
references so aliasing is observable; `wav_raw_list` records the tensors as
returned by the wavelet loop, before the normalization stage reuses the
list's slots. -/
structure Bundle where
  exp_path_list : List String
  eeg_refs : List ℕ
  smooth_refs : List ℕ
  exp_eeg_list : List Mat
  smooth_exp_list : List Mat
  wav_raw_list : List Mat
  wav_ref : ℕ
  norm_ref : ℕ
  wav_exp_list : List Mat
  norm_wav_exp_list : List Mat
  frame_var_list : List (List Val)
  frame_amp_list : List (List Val)
  behav_exp_list : List (List Behav)
  test_rest_mask : List (List Bool)
  test_boundary_mask : List (List Bool)
  exp_idx : List ℕ
  frame_idx : List ℕ
  data_concat : Mat
  data_behav_concat : List Behav
  data_mask : List Bool
  preprocess_data : Mat
  frame_index : List ℕ
  experminet_index : List ℕ
  frame_amplitudes : List Val

/-- The smoothing and centering stages composed (source lines 85-100). -/
def scOf (ext : Ext) (cfg : Config) (ms : List Mat) : SCState :=
  centerStage cfg.mean_center (smoothStage ext.savgol cfg.smooth (scInit ms))

/-- The constructor body after the reading loop (source lines 77-206),
as a pure function of the read matrices.  The Python loops index the
parallel per-experiment lists; they are rendered as maps over the same
index ranges the loops use. -/
def build (ext : Ext) (gtList : List GTEntry) (cfg : Config)
    (paths : List String) (eegMats0 : List Mat) : Bundle :=
  let sc := scOf ext cfg eegMats0
  let eegMats := sc.eegRefs.map (fun r => sc.heap.getD r [])
  let smoothMats := sc.smoothRefs.map (fun r => sc.heap.getD r [])
  let wavMats := smoothMats.map (fun m =>
    trM (ext.findWav (trM m) cfg.num_channels 5 cfg.samp_rate cfg.min_frequency cfg.max_frequency).1)
  let frameVar := wavMats.map (fun m => (colsOf m).map (fun c => ext.log10 (valVar c)))
  let frameAmp := wavMats.map (fun m => (colsOf m).map (fun c => ext.log10 (valSum c)))
  let ns := normStage cfg.normalize wavMats
  let wavList := ns.lheap.getD ns.wavRef []
  let normList := ns.lheap.getD ns.normRef []
  let expIdxAll := (eegMats.enum.map (fun p => List.replicate (nCols p.2) p.1)).flatten
  let frameIdxAll := (eegMats.map (fun m => List.range (nCols m))).flatten
  let labelsGt := gtStageL gtList cfg.clip_len paths eegMats
  let restMasks := restMasksOf ext.otsu paths frameAmp
  let labelsRest := restStageL restMasks paths.length labelsGt
  let boundMasks := boundMasksOf cfg.bound_len paths frameAmp
  let labelsFinal := boundStageL boundMasks paths.length labelsRest
  let dataConcat := concatCols normList
  let dataBehavConcat := labelsFinal.flatten
  let mask := dataMask cfg.dump_rest cfg.no_bounds dataBehavConcat
  { exp_path_list := paths
    eeg_refs := sc.eegRefs
    smooth_refs := sc.smoothRefs
    exp_eeg_list := eegMats
    smooth_exp_list := smoothMats
    wav_raw_list := wavMats
    wav_ref := ns.wavRef
    norm_ref := ns.normRef
    wav_exp_list := wavList
    norm_wav_exp_list := normList
    frame_var_list := frameVar
    frame_amp_list := frameAmp
    behav_exp_list := labelsFinal
    test_rest_mask := restMasks
    test_boundary_mask := boundMasks
    exp_idx := expIdxAll
    frame_idx := frameIdxAll
    data_concat := dataConcat
    data_behav_concat := dataBehavConcat
    data_mask := mask
    preprocess_data := scrubMat (dataConcat.map (fun row => applyMask row mask))
    frame_index := applyMask frameIdxAll mask
    experminet_index := applyMask expIdxAll mask
    frame_amplitudes := applyMask frameAmp.flatten mask }

/-- The complete constructor: the reading loop (which can fail on the
`tf > ti` assertion), the pure body, and the line-178 shape assertion.
A failure of either `assert` is `Option.none` — no bundle escapes. -/
def run (ext : Ext) (gtList : List GTEntry) (cfg : Config)
    (exps : List ExpData) : Option Bundle :=
  match readLoop ext.nElec cfg.ti cfg.tf exps with
  | Except.error _ => Option.none
  | Except.ok ms =>
    if (build ext gtList cfg (exps.map ExpData.path) ms).frame_idx.length
          = (build ext gtList cfg (exps.map ExpData.path) ms).exp_idx.length
        ∧ (build ext gtList cfg (exps.map ExpData.path) ms).exp_idx.length
          = nCols (build ext gtList cfg (exps.map ExpData.path) ms).data_concat
    then Option.some (build ext gtList cfg (exps.map ExpData.path) ms)
    else Option.none

/-- The frame positions that can receive a ground-truth label, and the label
they receive: position `j` is reachable as `offset + clip_len // 2` for an
`offset` in the loop's range exactly when `2*(clip_len // 2) ≤ j < shape[0]`
(the electrode count), and the label written is the fold of `label_gt_list`
starting from NONE. -/
def gtLabelAt (gtList : List GTEntry) (clip_len nElecRows : ℕ) (path : String)
    (j : ℕ) : Behav :=
  if 2 * (clip_len / 2) ≤ j ∧ j < nElecRows then
    gtPassMid gtList clip_len path j Behav.none
  else Behav.none

/-! Concrete fixtures used by the witnesses and counterexamples. -/

/-- A concrete external-primitive instance: one electrode, identity smoother,
identity wavelet transform, constant-zero Otsu threshold and log. -/
def extW : Ext :=
  { nElec := 1
    savgol := id
    findWav := fun m _ _ _ _ _ => (m, [])
    otsu := fun _ _ => Val.fin 0
    log10 := fun _ => Val.fin 0 }

/-- A concrete three-frame single-electrode experiment. -/
def expW : ExpData := ⟨"exp/a", [[Val.fin 1, Val.fin 2, Val.fin 3]]⟩

/-- The matrix the reading loop allocates for `expW` with `ti=0`, `tf=None`. -/
def msW : List Mat := [[[Val.fin 1, Val.fin 2, Val.fin 3]]]

/-- A 500-frame and a 300-frame single-electrode experiment (for the
round-trip scenario). -/
def expA : ExpData := ⟨"exp/a", [List.replicate 500 (Val.fin 1)]⟩

def expB : ExpData := ⟨"exp/b", [List.replicate 300 (Val.fin 1)]⟩

/-- The round-trip configuration: conditioning and normalization off,
one spectral channel. -/
def cfg4 : Config :=
  { tf := Option.none, smooth := false, mean_center := false, normalize := false,
    num_channels := 1 }

/-- The matrices the reading loop allocates for `expA`/`expB` with `ti=0`,
`tf=None`. -/
def msAB : List Mat := [[List.replicate 500 (Val.fin 1)], [List.replicate 300 (Val.fin 1)]]

/-- A 5-frame and a 2-frame experiment (for the reading-loop failure
scenario). -/
def expC : ExpData := ⟨"exp/c", [List.replicate 5 (Val.fin 0)]⟩

def expD : ExpData := ⟨"exp/d", [List.replicate 2 (Val.fin 0)]⟩

/-! Helper lemmas about in-place updates on a heap modelled as a list. -/

theorem getD_set_self {α : Type*} (L : List α) (i : ℕ) (v d : α) :
    (L.set i v).getD i d = if i < L.length then v else L.getD i d := by
  rw [List.getD_eq_getElem?_getD, List.getElem?_set]
  by_cases h : i < L.length
  · simp [h]
  · simp [h, List.getElem?_eq_none (Nat.le_of_not_lt h)]

theorem getD_set_ne {α : Type*} (L : List α) {i j : ℕ} (h : i ≠ j) (v d : α) :
    (L.set i v).getD j d = L.getD j d := by
  rw [List.getD_eq_getElem?_getD, List.getElem?_set_ne h, ← List.getD_eq_getElem?_getD]

theorem foldl_setf_length {α : Type*} (f : ℕ → α → α) (d : α) :
    ∀ (refs : List ℕ) (L : List α),
      (refs.foldl (fun acc r => acc.set r (f r (acc.getD r d))) L).length = L.length := by
  intro refs
  induction refs with
  | nil => intro L; rfl
  | cons r rs ih => intro L; rw [List.foldl_cons, ih, List.length_set]

/-- A fold of in-place updates `acc[r] := f r acc[r]` over pairwise distinct
references touches each position at most once, so the result at any position
is the one-step image of the original. -/
theorem foldl_setf_getD {α : Type*} (f : ℕ → α → α) (d : α) :
    ∀ (refs : List ℕ) (L : List α), refs.Nodup → ∀ i,
      (refs.foldl (fun acc r => acc.set r (f r (acc.getD r d))) L).getD i d
        = if i ∈ refs ∧ i < L.length then f i (L.getD i d) else L.getD i d := by
  intro refs
  induction refs with
  | nil => intro L _ i; simp
  | cons r rs ih =>
    intro L hnd i
    rcases List.nodup_cons.mp hnd with ⟨hr, hnd1⟩
    rw [List.foldl_cons, ih _ hnd1 i, List.length_set]
    by_cases hir : i = r
    · subst hir
      have hnotin : i ∉ rs := hr
      rw [getD_set_self]
      by_cases hlen : i < L.length
      · simp [hnotin, hlen]
      · simp [hnotin, hlen]
    · rw [getD_set_ne _ (fun h => hir h.symm)]
      by_cases hmem : i ∈ rs
      · simp [hmem, List.mem_cons, hir]
      · simp [hmem, List.mem_cons, hir]

/-- Updating every position of a list in place, in index order, is `List.map`. -/
theorem foldl_set_range_map {α : Type*} (g : α → α) (d : α) (L : List α) :
    (List.range L.length).foldl (fun acc r => acc.set r (g (acc.getD r d))) L = L.map g := by
  have hlen : ((List.range L.length).foldl
      (fun acc r => acc.set r (g (acc.getD r d))) L).length = L.length :=
    foldl_setf_length (fun _ x => g x) d _ L
  apply List.ext_getElem (by rw [hlen, List.length_map])
  intro i h1 h2
  have hi : i < L.length := by rwa [hlen] at h1
  have hmain := foldl_setf_getD (fun _ x => g x) d (List.range L.length) L
      (List.nodup_range _) i
  rw [List.getD_eq_getElem _ d h1, List.getD_eq_getElem _ d hi] at hmain
  simp only [List.mem_range, hi, and_true, if_pos hi, if_true] at hmain
  rw [hmain, List.getElem_map]

theorem map_range_getD {α : Type*} (L : List α) (d : α) :
    (List.range L.length).map (fun r => L.getD r d) = L := by
  apply List.ext_getElem (by simp)
  intro i h1 h2
  rw [List.getElem_map, List.getElem_range, List.getD_eq_getElem _ d h2]

theorem map_range_getD_comp {α β : Type*} (f : α → β) (L : List α) (d : α) :
    (List.range L.length).map (fun r => f (L.getD r d)) = L.map f := by
  apply List.ext_getElem (by simp)
  intro i h1 h2
  have hi : i < L.length := by simpa using h1
  rw [List.getElem_map, List.getElem_range, List.getElem_map,
    List.getD_eq_getElem _ d hi]

theorem getD_map_range {α : Type*} (f : ℕ → α) (n i : ℕ) (d : α) (h : i < n) :
    ((List.range n).map f).getD i d = f i := by
  rw [List.getD_eq_getElem _ d (by simp [h]), List.getElem_map, List.getElem_range]

/-- A fold of length-preserving list updates preserves the length. -/
theorem length_foldl_of_pres {α β : Type*} (F : List α → β → List α)
    (hF : ∀ ls b, (F ls b).length = ls.length) :
    ∀ (l : List β) (L : List α), (l.foldl F L).length = L.length := by
  intro l
  induction l with
  | nil => intro L; rfl
  | cons x xs ih => intro L; rw [List.foldl_cons, ih, hF]

/-- With smoothing disabled, `self.smooth_exp_list` holds exactly the
references of `self.exp_eeg_list`, and centering (when on) rewrites those
shared matrices in place. -/
theorem sc_state_smooth_false (sg : List Val → List Val) (mc : Bool) (ms : List Mat) :
    centerStage mc (smoothStage sg false (scInit ms)) =
      ⟨if mc then ms.map centerMat else ms, List.range ms.length, List.range ms.length⟩ := by
  cases mc with
  | false => simp [centerStage, smoothStage, scInit]
  | true =>
    simp only [centerStage, smoothStage, scInit, if_true, if_false, Bool.false_eq_true]
    exact congrArg (fun h => SCState.mk h (List.range ms.length) (List.range ms.length))
      (foldl_set_range_map centerMat [] ms)

/-- With smoothing enabled, fresh smoothed matrices live after the raw ones
on the heap; centering (when on) rewrites only the smoothed ones. -/
theorem sc_state_smooth_true (sg : List Val → List Val) (mc : Bool) (ms : List Mat) :
    centerStage mc (smoothStage sg true (scInit ms)) =
      ⟨ms ++ (ms.map (savgolMat sg)).map (fun m => if mc then centerMat m else m),
       List.range ms.length, List.range' ms.length ms.length⟩ := by
  have hstage : smoothStage sg true (scInit ms) =
      ⟨ms ++ ms.map (savgolMat sg), List.range ms.length, List.range' ms.length ms.length⟩ := by
    simp only [smoothStage, scInit, if_true]
    rw [map_range_getD_comp (savgolMat sg) ms []]
    simp
  rw [hstage]
  cases mc with
  | false =>
    simp only [centerStage, if_false, Bool.false_eq_true]
    simp
  | true =>
    simp only [centerStage, if_true]
    have hheap : (List.range' ms.length ms.length).foldl
          (fun h r => h.set r (centerMat (h.getD r []))) (ms ++ ms.map (savgolMat sg))
        = ms ++ (ms.map (savgolMat sg)).map (fun m => centerMat m) := by
      set k := ms.length with hk
      set sm := ms.map (savgolMat sg) with hsm
      have hsmlen : sm.length = k := by simp [hsm, hk]
      have hfull : (ms ++ sm).length = k + k := by simp [hk, hsmlen]
      have hlen2 : ((List.range' k k).foldl
          (fun h r => h.set r (centerMat (h.getD r []))) (ms ++ sm)).length
            = (ms ++ sm).length :=
        foldl_setf_length (fun _ m => centerMat m) [] _ _
      apply List.ext_getElem
        (by rw [hlen2, hfull]; simp only [List.length_append, List.length_map, hsmlen])
      intro i h1 h2
      have hi2 : i < k + k := by rw [hlen2, hfull] at h1; exact h1
      have hget := foldl_setf_getD (fun _ m => centerMat m) []
        (List.range' k k) (ms ++ sm) (List.nodup_range' _ _) i
      rw [List.getD_eq_getElem _ [] h1, List.getD_eq_getElem _ [] (by rw [hfull]; exact hi2)]
        at hget
      by_cases hik : i < k
      · have hnotin : ¬ (i ∈ List.range' k k ∧ i < (ms ++ sm).length) := by
          rintro ⟨hmem, -⟩
          exact absurd (List.mem_range'_1.mp hmem).1 (Nat.not_le_of_lt hik)
        rw [if_neg hnotin] at hget
        rw [hget, List.getElem_append_left (by simpa [hk] using hik),
          List.getElem_append_left (by simpa [hk] using hik)]
      · have hmem : i ∈ List.range' k k :=
          List.mem_range'_1.mpr ⟨Nat.le_of_not_lt hik, by omega⟩
        rw [if_pos ⟨hmem, by rw [hfull]; exact hi2⟩] at hget
        rw [hget, List.getElem_append_right (by simpa [hk] using Nat.le_of_not_lt hik),
          List.getElem_append_right (by simpa [hk] using Nat.le_of_not_lt hik)]
        simp [hsm]
    show SCState.mk
        ((List.range' ms.length ms.length).foldl
          (fun h r => h.set r (centerMat (h.getD r []))) (ms ++ ms.map (savgolMat sg)))
        (List.range ms.length) (List.range' ms.length ms.length)
      = SCState.mk
        (ms ++ (ms.map (savgolMat sg)).map (fun m => if true then centerMat m else m))
        (List.range ms.length) (List.range' ms.length ms.length)
    rw [hheap]
    simp

/-- A fold that only ever rewrites slot 0 of a singleton heap is a fold on
the single object. -/
theorem singleton_heap_fold {α β : Type*} (d : α) (F : α → β → α) :
    ∀ (is : List β) (L : α),
      is.foldl (fun lh i => lh.set 0 (F (lh.getD 0 d) i)) [L] = [is.foldl F L] := by
  intro is
  induction is with
  | nil => intro L; rfl
  | cons i is ih =>
    intro L
    rw [List.foldl_cons, List.foldl_cons]
    exact ih (F L i)

theorem normStage_false (w : List Mat) : normStage false w = ⟨[w], 0, 0⟩ := rfl

/-- With normalization on, the single wavelet-list object — reachable
through both `self.wav_exp_list` and `self.norm_wav_exp_list` — ends up
holding the normalized tensors slot for slot. -/
theorem normStage_true (w : List Mat) :
    normStage true w = ⟨[w.map normalizeMat], 0, 0⟩ := by
  simp only [normStage, if_true]
  refine congrArg (fun l => NormSt.mk l 0 0) ?_
  rw [singleton_heap_fold ([] : List Mat)
    (fun L i => L.set i (normalizeMat (L.getD i []))) (List.range w.length) w]
  rw [foldl_set_range_map normalizeMat [] w]

theorem gtPassExp_length (gtList : List GTEntry) (clip nE : ℕ) (path : String)
    (L : List Behav) : (gtPassExp gtList clip nE path L).length = L.length := by
  unfold gtPassExp
  exact length_foldl_of_pres _ (fun ls o => by simp [List.length_set]) _ L

/-! Definitional field equations of `build`. -/

theorem build_paths_eq (ext : Ext) (gtList : List GTEntry) (cfg : Config)
    (paths : List String) (ms : List Mat) :
    (build ext gtList cfg paths ms).exp_path_list = paths := rfl

theorem build_eeg_refs_eq (ext : Ext) (gtList : List GTEntry) (cfg : Config)
    (paths : List String) (ms : List Mat) :
    (build ext gtList cfg paths ms).eeg_refs = (scOf ext cfg ms).eegRefs := rfl

theorem build_smooth_refs_eq (ext : Ext) (gtList : List GTEntry) (cfg : Config)
    (paths : List String) (ms : List Mat) :
    (build ext gtList cfg paths ms).smooth_refs = (scOf ext cfg ms).smoothRefs := rfl

theorem build_eeg_eq (ext : Ext) (gtList : List GTEntry) (cfg : Config)
    (paths : List String) (ms : List Mat) :
    (build ext gtList cfg paths ms).exp_eeg_list
      = (scOf ext cfg ms).eegRefs.map (fun r => (scOf ext cfg ms).heap.getD r []) := rfl

theorem build_smooth_eq (ext : Ext) (gtList : List GTEntry) (cfg : Config)
    (paths : List String) (ms : List Mat) :
    (build ext gtList cfg paths ms).smooth_exp_list
      = (scOf ext cfg ms).smoothRefs.map (fun r => (scOf ext cfg ms).heap.getD r []) := rfl

theorem build_wavraw_eq (ext : Ext) (gtList : List GTEntry) (cfg : Config)
    (paths : List String) (ms : List Mat) :
    (build ext gtList cfg paths ms).wav_raw_list
      = (build ext gtList cfg paths ms).smooth_exp_list.map (fun m =>
          trM (ext.findWav (trM m) cfg.num_channels 5 cfg.samp_rate
            cfg.min_frequency cfg.max_frequency).1) := rfl

theorem build_frameamp_eq (ext : Ext) (gtList : List GTEntry) (cfg : Config)
    (paths : List String) (ms : List Mat) :
    (build ext gtList cfg paths ms).frame_amp_list
      = (build ext gtList cfg paths ms).wav_raw_list.map (fun m =>
          (colsOf m).map (fun c => ext.log10 (valSum c))) := rfl

theorem build_wavref_eq (ext : Ext) (gtList : List GTEntry) (cfg : Config)
    (paths : List String) (ms : List Mat) :
    (build ext gtList cfg paths ms).wav_ref
      = (normStage cfg.normalize ((build ext gtList cfg paths ms).wav_raw_list)).wavRef := rfl

theorem build_normref_eq (ext : Ext) (gtList : List GTEntry) (cfg : Config)
    (paths : List String) (ms : List Mat) :
    (build ext gtList cfg paths ms).norm_ref
      = (normStage cfg.normalize ((build ext gtList cfg paths ms).wav_raw_list)).normRef := rfl

theorem build_spect_eq (ext : Ext) (gtList : List GTEntry) (cfg : Config)
    (paths : List String) (ms : List Mat) :
    (build ext gtList cfg paths ms).wav_exp_list
      = (normStage cfg.normalize ((build ext gtList cfg paths ms).wav_raw_list)).lheap.getD
          (normStage cfg.normalize ((build ext gtList cfg paths ms).wav_raw_list)).wavRef [] := rfl

theorem build_normspect_eq (ext : Ext) (gtList : List GTEntry) (cfg : Config)
    (paths : List String) (ms : List Mat) :
    (build ext gtList cfg paths ms).norm_wav_exp_list
      = (normStage cfg.normalize ((build ext gtList cfg paths ms).wav_raw_list)).lheap.getD
          (normStage cfg.normalize ((build ext gtList cfg paths ms).wav_raw_list)).normRef [] := rfl

theorem build_expidx_eq (ext : Ext) (gtList : List GTEntry) (cfg : Config)
    (paths : List String) (ms : List Mat) :
    (build ext gtList cfg paths ms).exp_idx
      = ((build ext gtList cfg paths ms).exp_eeg_list.enum.map
          (fun p => List.replicate (nCols p.2) p.1)).flatten := rfl

theorem build_frameidx_eq (ext : Ext) (gtList : List GTEntry) (cfg : Config)
    (paths : List String) (ms : List Mat) :
    (build ext gtList cfg paths ms).frame_idx
      = ((build ext gtList cfg paths ms).exp_eeg_list.map
          (fun m => List.range (nCols m))).flatten := rfl

theorem build_restmask_eq (ext : Ext) (gtList : List GTEntry) (cfg : Config)
    (paths : List String) (ms : List Mat) :
    (build ext gtList cfg paths ms).test_rest_mask
      = restMasksOf ext.otsu paths ((build ext gtList cfg paths ms).frame_amp_list) := rfl

theorem build_boundmask_eq (ext : Ext) (gtList : List GTEntry) (cfg : Config)
    (paths : List String) (ms : List Mat) :
    (build ext gtList cfg paths ms).test_boundary_mask
      = boundMasksOf cfg.bound_len paths ((build ext gtList cfg paths ms).frame_amp_list) := rfl

theorem build_behavlist_eq (ext : Ext) (gtList : List GTEntry) (cfg : Config)
    (paths : List String) (ms : List Mat) :
    (build ext gtList cfg paths ms).behav_exp_list
      = boundStageL (boundMasksOf cfg.bound_len paths ((build ext gtList cfg paths ms).frame_amp_list))
          paths.length
          (restStageL (restMasksOf ext.otsu paths ((build ext gtList cfg paths ms).frame_amp_list))
            paths.length
            (gtStageL gtList cfg.clip_len paths ((build ext gtList cfg paths ms).exp_eeg_list))) := rfl

theorem build_behavconcat_eq (ext : Ext) (gtList : List GTEntry) (cfg : Config)
    (paths : List String) (ms : List Mat) :
    (build ext gtList cfg paths ms).data_behav_concat
      = (build ext gtList cfg paths ms).behav_exp_list.flatten := rfl

theorem build_dataconcat_eq (ext : Ext) (gtList : List GTEntry) (cfg : Config)
    (paths : List String) (ms : List Mat) :
    (build ext gtList cfg paths ms).data_concat
      = concatCols ((build ext gtList cfg paths ms).norm_wav_exp_list) := rfl

theorem build_mask_eq (ext : Ext) (gtList : List GTEntry) (cfg : Config)
    (paths : List String) (ms : List Mat) :
    (build ext gtList cfg paths ms).data_mask
      = dataMask cfg.dump_rest cfg.no_bounds
          ((build ext gtList cfg paths ms).data_behav_concat) := rfl

theorem build_pre_eq (ext : Ext) (gtList : List GTEntry) (cfg : Config)
    (paths : List String) (ms : List Mat) :
    (build ext gtList cfg paths ms).preprocess_data
      = scrubMat (((build ext gtList cfg paths ms).data_concat).map
          (fun row => applyMask row ((build ext gtList cfg paths ms).data_mask))) := rfl

theorem build_frameindex_eq (ext : Ext) (gtList : List GTEntry) (cfg : Config)
    (paths : List String) (ms : List Mat) :
    (build ext gtList cfg paths ms).frame_index
      = applyMask ((build ext gtList cfg paths ms).frame_idx)
          ((build ext gtList cfg paths ms).data_mask) := rfl

theorem build_expindex_eq (ext : Ext) (gtList : List GTEntry) (cfg : Config)
    (paths : List String) (ms : List Mat) :
    (build ext gtList cfg paths ms).experminet_index
      = applyMask ((build ext gtList cfg paths ms).exp_idx)
          ((build ext gtList cfg paths ms).data_mask) := rfl

theorem build_amps_eq (ext : Ext) (gtList : List GTEntry) (cfg : Config)
    (paths : List String) (ms : List Mat) :
    (build ext gtList cfg paths ms).frame_amplitudes
      = applyMask ((build ext gtList cfg paths ms).frame_amp_list.flatten)
          ((build ext gtList cfg paths ms).data_mask) := rfl

/-- Eliminating a successful `run`: the read loop succeeded, the bundle is
`build` of its result, and the line-178 assertion holds. -/
theorem run_eq_some_elim (ext : Ext) (gtList : List GTEntry) (cfg : Config)
    (exps : List ExpData) (b : Bundle)
    (h : run ext gtList cfg exps = Option.some b) :
    ∃ ms, readLoop ext.nElec cfg.ti cfg.tf exps = Except.ok ms ∧
      b = build ext gtList cfg (exps.map ExpData.path) ms ∧
      b.frame_idx.length = b.exp_idx.length ∧
      b.exp_idx.length = nCols b.data_concat := by
  unfold run at h
  split at h
  · exact absurd h (by simp)
  · rename_i ms hr
    split at h
    · rename_i hc
      obtain rfl : build ext gtList cfg (exps.map ExpData.path) ms = b := Option.some.inj h
      exact ⟨ms, hr, rfl, hc.1, hc.2⟩
    · exact absurd h (by simp)

/-! Helper lemmas about masks and the scrub. -/

theorem applyMask_length {α : Type*} :
    ∀ (mask : List Bool) (l : List α), l.length = mask.length →
      (applyMask l mask).length = (mask.filter (fun b => b)).length := by
  intro mask
  induction mask with
  | nil =>
    intro l h
    rw [List.length_eq_zero.mp h]
    rfl
  | cons bb mask ih =>
    intro l h
    cases l with
    | nil => simp at h
    | cons a l =>
      have h2 : l.length = mask.length := by simpa using h
      cases bb with
      | false => simpa [applyMask, List.filter_cons] using ih l h2
      | true => simpa [applyMask, List.filter_cons] using ih l h2

theorem applyMask_all_true {α : Type*} :
    ∀ (mask : List Bool) (l : List α), l.length = mask.length →
      (∀ b ∈ mask, b = true) → applyMask l mask = l := by
  intro mask
  induction mask with
  | nil =>
    intro l h _
    rw [List.length_eq_zero.mp h]
    rfl
  | cons bb mask ih =>
    intro l h hall
    cases l with
    | nil => simp at h
    | cons a l =>
      have hb : bb = true := hall bb (List.mem_cons_self bb mask)
      subst hb
      have h2 : l.length = mask.length := by simpa using h
      simpa [applyMask] using ih l h2 (fun b hb => hall b (List.mem_cons_of_mem _ hb))

theorem dataMask_length (dr nb : Bool) (labels : List Behav) :
    (dataMask dr nb labels).length = labels.length := by
  cases dr <;> cases nb <;> simp [dataMask]

theorem dataMask_false_false (labels : List Behav) :
    dataMask false false labels = labels.map (fun _ => true) := rfl

/-- Pointwise value of the inclusion mask: a frame is retained iff it is not
REST-labeled (when `dump_rest`) and not BOUNDARY-labeled (when `no_bounds`). -/
theorem dataMask_getD (dr nb : Bool) (labels : List Behav) (j : ℕ)
    (hj : j < labels.length) :
    (dataMask dr nb labels).getD j false =
      ((!dr || decide (labels.getD j Behav.none ≠ Behav.rest)) &&
       (!nb || decide (labels.getD j Behav.none ≠ Behav.boundary))) := by
  have hlen : j < (dataMask dr nb labels).length := by rw [dataMask_length]; exact hj
  rw [List.getD_eq_getElem _ false hlen, List.getD_eq_getElem _ Behav.none hj]
  cases dr <;> cases nb <;>
    simp [dataMask, List.getElem_zipWith, List.getElem_map]

theorem scrubMat_no_bad (m : Mat) :
    ∀ r ∈ scrubMat m, ∀ x ∈ r, x.isBad = false := by
  intro r hr x hx
  obtain ⟨r0, hr0, rfl⟩ := List.mem_map.mp hr
  obtain ⟨x0, hx0, rfl⟩ := List.mem_map.mp hx
  by_cases hb : x0.isBad = true
  · rw [if_pos hb]; rfl
  · rw [if_neg hb]; simpa using hb

theorem scrubMat_id_of_good (m : Mat)
    (h : ∀ r ∈ m, ∀ x ∈ r, x.isBad = false) : scrubMat m = m := by
  unfold scrubMat
  rw [show m.map (fun r => r.map (fun x => if x.isBad then Val.fin 0 else x))
      = m.map (fun r => r) from ?_, List.map_id_fun']
  · rfl
  · apply List.map_congr_left
    intro r hr
    rw [show r.map (fun x => if x.isBad then Val.fin 0 else x) = r.map (fun x => x) from ?_,
      List.map_id_fun']
    · rfl
    · apply List.map_congr_left
      intro x hx
      simp [h r hr x hx]

theorem readLoop_ok_length (nElec ti : ℕ) :
    ∀ (exps : List ExpData) (tf : Option ℕ) (ms : List Mat),
      readLoop nElec ti tf exps = Except.ok ms → ms.length = exps.length := by
  intro exps
  induction exps with
  | nil =>
    intro tf ms h
    obtain rfl : ([] : List Mat) = ms := Except.ok.inj h
    rfl
  | cons e es ih =>
    intro tf ms h
    unfold readLoop at h
    split at h
    · rename_i hlt
      cases hrec : readLoop nElec ti (Option.some (resolveTf tf e.len)) es with
      | ok ms2 =>
        rw [hrec] at h
        obtain rfl := Except.ok.inj h
        simpa using ih _ _ hrec
      | error ms2 => rw [hrec] at h; cases h
    · cases h

/-! Pointwise characterization of the label passes. -/

theorem getD_map_in {α β : Type*} (f : α → β) (l : List α) (i : ℕ) (d : β) (e : α)
    (h : i < l.length) : (l.map f).getD i d = f (l.getD i e) := by
  rw [List.getD_eq_getElem _ d (by simpa using h), List.getElem_map,
    List.getD_eq_getElem _ e h]

theorem getD_replicate_none (n j : ℕ) :
    (List.replicate n Behav.none).getD j Behav.none = Behav.none := by
  by_cases h : j < n
  · rw [List.getD_eq_getElem _ _ (by simpa using h), List.getElem_replicate]
  · rw [List.getD_eq_default _ _ (by simpa using Nat.le_of_not_lt h)]

theorem gtStageL_length (gtList : List GTEntry) (clip : ℕ) (paths : List String)
    (eegMats : List Mat) : (gtStageL gtList clip paths eegMats).length = eegMats.length := by
  simp [gtStageL]

theorem restStageL_length (rm : List (List Bool)) (n : ℕ) (labels : List (List Behav)) :
    (restStageL rm n labels).length = labels.length := by
  simp [restStageL]

theorem boundStageL_length (bm : List (List Bool)) (n : ℕ) (labels : List (List Behav)) :
    (boundStageL bm n labels).length = labels.length := by
  simp [boundStageL]

theorem boundaryMaskV_length (bl n : ℕ) : (boundaryMaskV bl n).length = n := by
  simp [boundaryMaskV]

theorem restMasksOf_getD (otsu : List Val → ℕ → Val) (paths : List String)
    (frameAmp : List (List Val)) (i : ℕ) (hi : i < paths.length) :
    (restMasksOf otsu paths frameAmp).getD i []
      = (frameAmp.getD i []).map (fun a =>
          a.lt (otsu (frameAmp.getD i []) ((paths.getD i "").length / 2))) := by
  unfold restMasksOf
  rw [getD_map_range _ _ _ _ hi]

theorem boundMasksOf_getD (bl : ℕ) (paths : List String)
    (frameAmp : List (List Val)) (i : ℕ) (hi : i < paths.length) :
    (boundMasksOf bl paths frameAmp).getD i []
      = boundaryMaskV bl (frameAmp.getD i []).length := by
  unfold boundMasksOf
  rw [getD_map_range _ _ _ _ hi]

theorem gtStageL_getD (gtList : List GTEntry) (clip : ℕ) (paths : List String)
    (eegMats : List Mat) (i : ℕ) (hi : i < eegMats.length) :
    (gtStageL gtList clip paths eegMats).getD i []
      = gtPassExp gtList clip (nRows (eegMats.getD i [])) (paths.getD i "")
          (List.replicate (nCols (eegMats.getD i [])) Behav.none) := by
  unfold gtStageL
  rw [getD_map_range _ _ _ _ hi]

theorem restStageL_getD (rm : List (List Bool)) (n : ℕ) (labels : List (List Behav))
    (i : ℕ) (hi : i < labels.length) (hin : i < n) :
    (restStageL rm n labels).getD i []
      = restApply (rm.getD i []) (labels.getD i []) := by
  unfold restStageL
  rw [getD_map_range _ _ _ _ hi, if_pos hin]

theorem boundStageL_getD (bm : List (List Bool)) (n : ℕ) (labels : List (List Behav))
    (i : ℕ) (hi : i < labels.length) (hin : i < n) :
    (boundStageL bm n labels).getD i []
      = boundApply (bm.getD i []) (labels.getD i []) := by
  unfold boundStageL
  rw [getD_map_range _ _ _ _ hi, if_pos hin]

theorem restApply_getD (mask : List Bool) (ls : List Behav) (j : ℕ)
    (h1 : j < mask.length) (h2 : j < ls.length) :
    (restApply mask ls).getD j Behav.none
      = if mask.getD j false then Behav.rest else ls.getD j Behav.none := by
  unfold restApply
  rw [List.getD_eq_getElem _ _ (by rw [List.length_zipWith]; exact Nat.lt_min.mpr ⟨h1, h2⟩),
    List.getElem_zipWith, List.getD_eq_getElem _ _ h1, List.getD_eq_getElem _ _ h2]

theorem boundApply_getD (mask : List Bool) (ls : List Behav) (j : ℕ)
    (h1 : j < mask.length) (h2 : j < ls.length) :
    (boundApply mask ls).getD j Behav.none
      = if mask.getD j false then Behav.boundary else ls.getD j Behav.none := by
  unfold boundApply
  rw [List.getD_eq_getElem _ _ (by rw [List.length_zipWith]; exact Nat.lt_min.mpr ⟨h1, h2⟩),
    List.getElem_zipWith, List.getD_eq_getElem _ _ h1, List.getD_eq_getElem _ _ h2]

theorem restApply_length (mask : List Bool) (ls : List Behav) :
    (restApply mask ls).length = min mask.length ls.length := by
  simp [restApply]

theorem boundApply_length (mask : List Bool) (ls : List Behav) :
    (boundApply mask ls).length = min mask.length ls.length := by
  simp [boundApply]

theorem foldl_reindex {α β γ : Type*} (g : β → γ) (F : α → γ → α) :
    ∀ (l : List β) (init : α),
      l.foldl (fun x y => F x (g y)) init = (l.map g).foldl F init := by
  intro l
  induction l with
  | nil => intro init; rfl
  | cons b bs ih => intro init; rw [List.foldl_cons, List.map_cons, List.foldl_cons, ih]

/-- Pointwise value of the ground-truth pass on a fresh all-NONE vector. -/
theorem gtPassExp_getD (gtList : List GTEntry) (clip nR : ℕ) (path : String)
    (n j : ℕ) (hnR : nR ≤ n) :
    (gtPassExp gtList clip nR path (List.replicate n Behav.none)).getD j Behav.none
      = gtLabelAt gtList clip nR path j := by
  unfold gtPassExp gtLabelAt pyRange
  have heq := foldl_reindex (fun o : ℕ => o + clip / 2)
      (fun (ls : List Behav) m => ls.set m (gtPassMid gtList clip path m (ls.getD m Behav.none)))
      (List.range' (clip / 2) (nR - clip / 2 - clip / 2)) (List.replicate n Behav.none)
  rw [heq]
  have hnd : ((List.range' (clip / 2) (nR - clip / 2 - clip / 2)).map
      (fun o => o + clip / 2)).Nodup :=
    List.Nodup.map (fun a b h => by omega) (List.nodup_range' _ _)
  rw [foldl_setf_getD (fun m cur => gtPassMid gtList clip path m cur) Behav.none _ _ hnd j,
    List.length_replicate, getD_replicate_none]
  by_cases hw : 2 * (clip / 2) ≤ j ∧ j < nR
  · have hmem : j ∈ (List.range' (clip / 2) (nR - clip / 2 - clip / 2)).map
        (fun o => o + clip / 2) :=
      List.mem_map.mpr ⟨j - clip / 2, List.mem_range'_1.mpr ⟨by omega, by omega⟩, by omega⟩
    rw [if_pos hw, if_pos ⟨hmem, by omega⟩]
  · have hnotin : ¬ (j ∈ (List.range' (clip / 2) (nR - clip / 2 - clip / 2)).map
        (fun o => o + clip / 2) ∧ j < n) := by
      rintro ⟨hmem, -⟩
      obtain ⟨a, ha, rfl⟩ := List.mem_map.mp hmem
      obtain ⟨ha1, ha2⟩ := List.mem_range'_1.mp ha
      exact hw ⟨by omega, by omega⟩
    rw [if_neg hw, if_neg hnotin]

/-! Characterization of the reading loop. -/

theorem resolveSeq_le_exps :
    ∀ (exps : List ExpData) (tf0 : Option ℕ),
      ∀ p ∈ List.zip (resolveSeq tf0 (exps.map ExpData.len)) exps, p.1 ≤ p.2.len := by
  intro exps
  induction exps with
  | nil => intro tf0 p hp; cases hp
  | cons e es ih =>
    intro tf0 p hp
    rw [List.map_cons] at hp
    rw [show resolveSeq tf0 (e.len :: es.map ExpData.len)
        = resolveTf tf0 e.len :: resolveSeq (Option.some (resolveTf tf0 e.len))
            (es.map ExpData.len) from rfl, List.zip_cons_cons] at hp
    rcases List.mem_cons.mp hp with heq | htail
    · subst heq
      cases tf0 with
      | none => exact Nat.le_refl _
      | some t0 => exact Nat.min_le_right _ _
    · exact ih _ p htail

theorem readLoop_ok_char (nElec ti : ℕ) :
    ∀ (exps : List ExpData) (tf0 : Option ℕ),
      (resolveSeq tf0 (exps.map ExpData.len)).all (fun t => decide (ti < t)) = true →
      readLoop nElec ti tf0 exps
        = Except.ok (List.zipWith (readMat nElec ti)
            (resolveSeq tf0 (exps.map ExpData.len)) exps) := by
  intro exps
  induction exps with
  | nil => intro tf0 _; rfl
  | cons e es ih =>
    intro tf0 hall
    rw [List.map_cons,
      show resolveSeq tf0 (e.len :: es.map ExpData.len)
        = resolveTf tf0 e.len :: resolveSeq (Option.some (resolveTf tf0 e.len))
            (es.map ExpData.len) from rfl] at hall ⊢
    rw [List.all_cons, Bool.and_eq_true, decide_eq_true_iff] at hall
    unfold readLoop
    rw [if_pos hall.1, ih _ hall.2]
    rfl

theorem readLoop_error_char (nElec ti : ℕ) :
    ∀ (exps : List ExpData) (tf0 : Option ℕ),
      (resolveSeq tf0 (exps.map ExpData.len)).all (fun t => decide (ti < t)) = false →
      readLoop nElec ti tf0 exps
        = Except.error (List.zipWith (readMat nElec ti)
            ((resolveSeq tf0 (exps.map ExpData.len)).takeWhile
              (fun t => decide (ti < t))) exps) := by
  intro exps
  induction exps with
  | nil => intro tf0 h; cases h
  | cons e es ih =>
    intro tf0 hall
    rw [List.map_cons,
      show resolveSeq tf0 (e.len :: es.map ExpData.len)
        = resolveTf tf0 e.len :: resolveSeq (Option.some (resolveTf tf0 e.len))
            (es.map ExpData.len) from rfl] at hall ⊢
    by_cases h1 : ti < resolveTf tf0 e.len
    · rw [List.all_cons] at hall
      have htail : (resolveSeq (Option.some (resolveTf tf0 e.len))
          (es.map ExpData.len)).all (fun t => decide (ti < t)) = false := by
        by_contra hc
        rw [Bool.not_eq_false] at hc
        rw [hc] at hall
        simp [h1] at hall
      unfold readLoop
      rw [if_pos h1, ih _ htail, List.takeWhile_cons_of_pos (by simpa using h1)]
      rfl
    · unfold readLoop
      rw [if_neg h1, List.takeWhile_cons_of_neg (by simpa using h1)]
      rfl

/-! The claims. -/

/-- C10: with `normalize=True`, `self.norm_wav_exp_list` aliases the
`self.wav_exp_list` list object, so after the slot-by-slot reassignment both
`Spect_list` and `Normalized_Spect_list` expose the same normalized tensors,
and the unnormalized tensors survive in neither field. -/
theorem C10_spect_alias (ext : Ext) (gtList : List GTEntry) (cfg : Config)
    (paths : List String) (ms : List Mat) (b : Bundle)
    (hb : b = build ext gtList cfg paths ms)
    (hnm : cfg.normalize = true) :
    b.wav_ref = b.norm_ref
    ∧ b.wav_exp_list = b.norm_wav_exp_list
    ∧ b.wav_exp_list = b.wav_raw_list.map normalizeMat := by
  subst hb
  rw [build_wavref_eq, build_normref_eq, build_spect_eq, build_normspect_eq,
    build_wavraw_eq, hnm, normStage_true]
  exact ⟨rfl, rfl, rfl⟩

theorem C10_witness :
    ({ } : Config).normalize = true
    ∧ ((build extW [] { } ["exp/a"] msW).wav_ref = (build extW [] { } ["exp/a"] msW).norm_ref
      ∧ (build extW [] { } ["exp/a"] msW).wav_exp_list
          = (build extW [] { } ["exp/a"] msW).norm_wav_exp_list
      ∧ (build extW [] { } ["exp/a"] msW).wav_exp_list
          = (build extW [] { } ["exp/a"] msW).wav_raw_list.map normalizeMat) :=
  ⟨rfl, C10_spect_alias extW [] { } ["exp/a"] msW _ rfl rfl⟩

/-- C9: with `smooth=False`, `self.smooth_exp_list` is the very same object
(the same references) as `self.exp_eeg_list`, so with `mean_center=True` the
in-place mean subtraction mutates the raw matrices and the bundle exposes
identical — centered — matrices under both names. -/
theorem C9_smooth_alias (ext : Ext) (gtList : List GTEntry) (cfg : Config)
    (paths : List String) (ms : List Mat) (b : Bundle)
    (hb : b = build ext gtList cfg paths ms)
    (hsm : cfg.smooth = false) (hmc : cfg.mean_center = true) :
    b.eeg_refs = b.smooth_refs
    ∧ b.exp_eeg_list = b.smooth_exp_list
    ∧ b.exp_eeg_list = ms.map centerMat := by
  subst hb
  rw [build_eeg_refs_eq, build_smooth_refs_eq, build_eeg_eq, build_smooth_eq]
  unfold scOf
  rw [hsm, hmc, sc_state_smooth_false]
  refine ⟨rfl, rfl, ?_⟩
  show (List.range ms.length).map
      (fun r => (if true then ms.map centerMat else ms).getD r []) = ms.map centerMat
  have h := map_range_getD (ms.map centerMat) []
  rw [List.length_map] at h
  simpa using h

theorem C9_witness :
    ({ smooth := false } : Config).smooth = false
    ∧ ({ smooth := false } : Config).mean_center = true
    ∧ ((build extW [] { smooth := false } ["exp/a"] msW).eeg_refs
          = (build extW [] { smooth := false } ["exp/a"] msW).smooth_refs
      ∧ (build extW [] { smooth := false } ["exp/a"] msW).exp_eeg_list
          = (build extW [] { smooth := false } ["exp/a"] msW).smooth_exp_list
      ∧ (build extW [] { smooth := false } ["exp/a"] msW).exp_eeg_list
          = msW.map centerMat) :=
  ⟨rfl, rfl, C9_smooth_alias extW [] { smooth := false } ["exp/a"] msW _ rfl rfl rfl⟩

/-- C5: a frame of experiment `i` is marked REST exactly when its
log-amplitude is strictly below the Otsu threshold computed over that same
experiment's amplitude vector with `nbins = len(path) // 2`; no other
experiment's data enters the computation. -/
theorem C5_rest_threshold (ext : Ext) (gtList : List GTEntry) (cfg : Config)
    (paths : List String) (ms : List Mat) (b : Bundle) (i : ℕ)
    (hb : b = build ext gtList cfg paths ms)
    (hi : i < paths.length) :
    b.test_rest_mask.getD i [] =
      (b.frame_amp_list.getD i []).map (fun a =>
        a.lt (ext.otsu (b.frame_amp_list.getD i []) ((paths.getD i "").length / 2))) := by
  subst hb
  rw [build_restmask_eq]
  unfold restMasksOf
  rw [getD_map_range _ _ _ _ hi]

theorem C5_witness :
    0 < ["exp/a"].length
    ∧ (build extW [] { } ["exp/a"] msW).test_rest_mask.getD 0 [] =
        ((build extW [] { } ["exp/a"] msW).frame_amp_list.getD 0 []).map (fun a =>
          a.lt (extW.otsu ((build extW [] { } ["exp/a"] msW).frame_amp_list.getD 0 [])
            ((["exp/a"].getD 0 "").length / 2))) :=
  ⟨by decide, C5_rest_threshold extW [] { } ["exp/a"] msW _ 0 rfl (by decide)⟩

/-- C7: NaN/Inf values are never scrubbed before the end of the pipeline —
the scrub is applied exactly once, to the fresh masked copy — and the
returned feature matrix contains no NaN or Inf entry. -/
theorem C7_scrub (ext : Ext) (gtList : List GTEntry) (cfg : Config)
    (exps : List ExpData) (b : Bundle)
    (hrun : run ext gtList cfg exps = Option.some b) :
    b.preprocess_data = scrubMat (b.data_concat.map (fun row => applyMask row b.data_mask))
    ∧ ∀ r ∈ b.preprocess_data, ∀ x ∈ r, x.isBad = false := by
  obtain ⟨ms, hr, rfl, h1, h2⟩ := run_eq_some_elim _ _ _ _ _ hrun
  refine ⟨build_pre_eq _ _ _ _ _, ?_⟩
  rw [build_pre_eq]
  exact scrubMat_no_bad _

theorem C7_witness :
    run extW [] { } [expW] = Option.some (build extW [] { } ["exp/a"] msW)
    ∧ ∀ r ∈ (build extW [] { } ["exp/a"] msW).preprocess_data,
        ∀ x ∈ r, x.isBad = false :=
  ⟨rfl, (C7_scrub extW [] { } [expW] _ rfl).2⟩

/-- C6: with `dump_rest=True` no retained frame carries the REST label, with
`no_bounds=True` none carries the BOUNDARY label, and with both flags off the
inclusion mask is all-true — nothing else removes frames. -/
theorem C6_mask_flags (ext : Ext) (gtList : List GTEntry) (cfg : Config)
    (exps : List ExpData) (b : Bundle)
    (hrun : run ext gtList cfg exps = Option.some b) :
    (cfg.dump_rest = true → ∀ j, b.data_mask.getD j false = true →
        b.data_behav_concat.getD j Behav.none ≠ Behav.rest)
    ∧ (cfg.no_bounds = true → ∀ j, b.data_mask.getD j false = true →
        b.data_behav_concat.getD j Behav.none ≠ Behav.boundary)
    ∧ (cfg.dump_rest = false → cfg.no_bounds = false →
        b.data_mask = b.data_behav_concat.map (fun _ => true)) := by
  obtain ⟨ms, hr, rfl, -, -⟩ := run_eq_some_elim _ _ _ _ _ hrun
  have hmask := build_mask_eq ext gtList cfg (exps.map ExpData.path) ms
  refine ⟨?_, ?_, ?_⟩
  · intro hdr j hj
    by_cases hlt :
      j < (build ext gtList cfg (exps.map ExpData.path) ms).data_behav_concat.length
    · rw [hmask, dataMask_getD _ _ _ _ hlt, hdr] at hj
      intro heq
      rw [heq] at hj
      simp at hj
    · rw [hmask, List.getD_eq_default] at hj
      · cases hj
      · rw [dataMask_length]; exact Nat.le_of_not_lt hlt
  · intro hnb j hj
    by_cases hlt :
      j < (build ext gtList cfg (exps.map ExpData.path) ms).data_behav_concat.length
    · rw [hmask, dataMask_getD _ _ _ _ hlt, hnb] at hj
      intro heq
      rw [heq] at hj
      simp at hj
    · rw [hmask, List.getD_eq_default] at hj
      · cases hj
      · rw [dataMask_length]; exact Nat.le_of_not_lt hlt
  · intro h1 h2
    rw [hmask, h1, h2, dataMask_false_false]

theorem C6_witness :
    run extW [] { dump_rest := true, no_bounds := true } [expW]
      = Option.some (build extW [] { dump_rest := true, no_bounds := true } ["exp/a"] msW)
    ∧ (∀ j, (build extW [] { dump_rest := true, no_bounds := true } ["exp/a"] msW).data_mask.getD
          j false = true →
        (build extW [] { dump_rest := true, no_bounds := true } ["exp/a"] msW).data_behav_concat.getD
          j Behav.none ≠ Behav.rest)
    ∧ (∀ j, (build extW [] { dump_rest := true, no_bounds := true } ["exp/a"] msW).data_mask.getD
          j false = true →
        (build extW [] { dump_rest := true, no_bounds := true } ["exp/a"] msW).data_behav_concat.getD
          j Behav.none ≠ Behav.boundary) :=
  ⟨rfl,
    (C6_mask_flags extW [] { dump_rest := true, no_bounds := true } [expW] _ rfl).1 rfl,
    (C6_mask_flags extW [] { dump_rest := true, no_bounds := true } [expW] _ rfl).2.1 rfl⟩

/-- C1 counterexample: with an empty ground-truth list no frame is eligible
for a ground-truth label, so under the claim every frame is "other" and must
be NONE; yet in this completed run frame 0 (a boundary-region frame) ends up
labeled BOUNDARY. -/
theorem C1_counterexample :
    run extW [] { } [expW] = Option.some (build extW [] { } ["exp/a"] msW)
    ∧ (build extW [] { } ["exp/a"] msW).data_behav_concat.getD 0 Behav.none = Behav.boundary
    ∧ Behav.boundary ≠ Behav.none :=
  ⟨rfl, rfl, by decide⟩

/-- C1 (amended): the final per-frame label follows strict override
precedence over the passes the code actually runs — BOUNDARY if the frame is
in the boundary mask, else REST if it is in the rest mask, else the result of
the ground-truth pass (`gtLabelAt`, NONE when no interval fires), whatever
combination of eligibilities holds. -/
theorem C1_label_precedence (ext : Ext) (gtList : List GTEntry) (cfg : Config)
    (paths : List String) (ms : List Mat) (b : Bundle) (i j : ℕ)
    (hb : b = build ext gtList cfg paths ms)
    (hi : i < paths.length)
    (hk : paths.length = b.exp_eeg_list.length)
    (hamp : (b.frame_amp_list.getD i []).length = nCols (b.exp_eeg_list.getD i []))
    (hrows : nRows (b.exp_eeg_list.getD i []) ≤ nCols (b.exp_eeg_list.getD i []))
    (hj : j < nCols (b.exp_eeg_list.getD i [])) :
    (b.behav_exp_list.getD i []).getD j Behav.none =
      if (b.test_boundary_mask.getD i []).getD j false then Behav.boundary
      else if (b.test_rest_mask.getD i []).getD j false then Behav.rest
      else gtLabelAt gtList cfg.clip_len (nRows (b.exp_eeg_list.getD i []))
        (paths.getD i "") j := by
  subst hb
  rw [build_behavlist_eq, build_boundmask_eq, build_restmask_eq]
  set A := (build ext gtList cfg paths ms).frame_amp_list with hA
  set E := (build ext gtList cfg paths ms).exp_eeg_list with hE
  have hiE : i < E.length := hk ▸ hi
  have hGlen : (gtStageL gtList cfg.clip_len paths E).length = E.length :=
    gtStageL_length _ _ _ _
  have hRlen : (restStageL (restMasksOf ext.otsu paths A) paths.length
      (gtStageL gtList cfg.clip_len paths E)).length
      = (gtStageL gtList cfg.clip_len paths E).length :=
    restStageL_length _ _ _
  rw [boundStageL_getD _ _ _ i (by rw [hRlen, hGlen]; exact hiE) hi,
    restStageL_getD _ _ _ i (by rw [hGlen]; exact hiE) hi,
    gtStageL_getD _ _ _ _ i hiE,
    boundMasksOf_getD _ _ _ i hi,
    restMasksOf_getD _ _ _ i hi]
  have hmap : ((A.getD i []).map (fun a =>
      a.lt (ext.otsu (A.getD i []) ((paths.getD i "").length / 2)))).length
      = nCols (E.getD i []) := by
    rw [List.length_map, hamp]
  have hgl : (gtPassExp gtList cfg.clip_len (nRows (E.getD i [])) (paths.getD i "")
      (List.replicate (nCols (E.getD i [])) Behav.none)).length = nCols (E.getD i []) := by
    rw [gtPassExp_length, List.length_replicate]
  rw [boundApply_getD _ _ j
      (by rw [boundaryMaskV_length, hamp]; exact hj)
      (by rw [restApply_length, hmap, hgl]; omega),
    restApply_getD _ _ j (by rw [hmap]; exact hj) (by rw [hgl]; exact hj),
    gtPassExp_getD _ _ _ _ _ j hrows]

/-- C3: the code evaluated at the failing input.  Two electrodes, 300 frames,
`clip_len=100`, one matching ground-truth interval `[100, 250)`: frame 175
satisfies every condition of the claim (midpoint strictly inside, margin
`min(75,75) > 33` from the interval edges, at least 50 frames from both ends
of the 300-frame range), yet the pass labels no frame at all, because the
loop bound is `shape[0]` — the electrode count 2 — so
`range(50, 2-50)` is empty. -/
theorem C3_code_eval :
    gtPassExp [⟨100, 250, Behav.gt 7, "exp"⟩] 100 2 "exp/mouse1"
        (List.replicate 300 Behav.none)
      = List.replicate 300 Behav.none
    ∧ (100 ≤ 175 ∧ 175 < 250
        ∧ 100 / 3 < min (175 - 100) (250 - 175)
        ∧ 100 / 2 ≤ 175 ∧ 175 + 100 / 2 ≤ 300
        ∧ strContains "exp" "exp/mouse1" = true) :=
  ⟨rfl, by decide⟩

/-- C8 counterexample: with `ti=3`, `tf=None` and experiments of 5 then 2
frames, the resolved `tf` of the second experiment (2) violates `tf > ti`,
but the failure happens only after the first experiment's matrix has been
allocated — the exception state carries one matrix, not none. -/
theorem C8_counterexample :
    readLoop 1 3 Option.none [expC, expD]
      = Except.error [[List.replicate 2 (Val.fin 0)]]
    ∧ ([[List.replicate 2 (Val.fin 0)]] : List Mat) ≠ [] :=
  ⟨rfl, by decide⟩

/-- C8 (amended): per experiment the usable frame bound is
`resolveSeq` — `min` of the running `tf` and the experiment's own length,
the running `tf` starting as given (or as the first experiment's length when
unset) and shrinking monotonically.  The loop succeeds iff every resolved
bound exceeds `ti`, allocating one `(electrode_count, tf_i - ti)` matrix per
experiment; otherwise it fails at the first offending experiment with
exactly the earlier experiments' matrices already allocated — in particular,
an explicit `tf ≤ ti` fails before any allocation. -/
theorem C8_read_resolution (nElec ti : ℕ) (tf0 : Option ℕ) (exps : List ExpData) :
    ((resolveSeq tf0 (exps.map ExpData.len)).all (fun t => decide (ti < t)) = true →
      readLoop nElec ti tf0 exps
        = Except.ok (List.zipWith (readMat nElec ti)
            (resolveSeq tf0 (exps.map ExpData.len)) exps))
    ∧ ((resolveSeq tf0 (exps.map ExpData.len)).all (fun t => decide (ti < t)) = false →
      readLoop nElec ti tf0 exps
        = Except.error (List.zipWith (readMat nElec ti)
            ((resolveSeq tf0 (exps.map ExpData.len)).takeWhile
              (fun t => decide (ti < t))) exps))
    ∧ (∀ t0 e es, exps = e :: es → tf0 = Option.some t0 → t0 ≤ ti →
        readLoop nElec ti tf0 exps = Except.error [])
    ∧ ((∀ e ∈ exps, e.table.length = nElec ∧ ∀ c ∈ e.table, c.length = e.len) →
        ∀ p ∈ List.zip (resolveSeq tf0 (exps.map ExpData.len)) exps,
          nRows (readMat nElec ti p.1 p.2) = nElec
          ∧ ∀ r ∈ readMat nElec ti p.1 p.2, r.length = p.1 - ti) := by
  refine ⟨readLoop_ok_char nElec ti exps tf0, readLoop_error_char nElec ti exps tf0,
    ?_, ?_⟩
  · rintro t0 e es rfl rfl h
    unfold readLoop
    rw [if_neg (Nat.not_lt.mpr (Nat.le_trans
      (show resolveTf (Option.some t0) e.len ≤ t0 from Nat.min_le_left t0 e.len) h))]
  · intro htab p hp
    have hle : p.1 ≤ p.2.len := resolveSeq_le_exps exps tf0 p hp
    have hmem : p.2 ∈ exps := (List.of_mem_zip hp).2
    constructor
    · simp [readMat, nRows]
    · intro r hr
      unfold readMat at hr
      obtain ⟨idx, hidx, rfl⟩ := List.mem_map.mp hr
      have hidxlt : idx < nElec := List.mem_range.mp hidx
      have htb := htab p.2 hmem
      have hcol : (p.2.table.getD idx []) ∈ p.2.table := by
        have : idx < p.2.table.length := by rw [htb.1]; exact hidxlt
        rw [List.getD_eq_getElem _ [] this]
        exact List.getElem_mem this
      have hclen : (p.2.table.getD idx []).length = p.2.len := htb.2 _ hcol
      rw [List.length_take, List.length_drop, hclen]
      omega

theorem C8_witness :
    (resolveSeq Option.none ([expC, expD].map ExpData.len)).all
        (fun t => decide (3 < t)) = false
    ∧ readLoop 1 3 Option.none [expC, expD]
        = Except.error (List.zipWith (readMat 1 3)
            ((resolveSeq Option.none ([expC, expD].map ExpData.len)).takeWhile
              (fun t => decide (3 < t))) [expC, expD]) :=
  ⟨by decide, (C8_read_resolution 1 3 Option.none [expC, expD]).2.1 (by decide)⟩

theorem C1_witness :
    0 < ["exp/a"].length
    ∧ ["exp/a"].length = (build extW [] { } ["exp/a"] msW).exp_eeg_list.length
    ∧ ((build extW [] { } ["exp/a"] msW).frame_amp_list.getD 0 []).length
        = nCols ((build extW [] { } ["exp/a"] msW).exp_eeg_list.getD 0 [])
    ∧ nRows ((build extW [] { } ["exp/a"] msW).exp_eeg_list.getD 0 [])
        ≤ nCols ((build extW [] { } ["exp/a"] msW).exp_eeg_list.getD 0 [])
    ∧ 0 < nCols ((build extW [] { } ["exp/a"] msW).exp_eeg_list.getD 0 [])
    ∧ ((build extW [] { } ["exp/a"] msW).behav_exp_list.getD 0 []).getD 0 Behav.none =
        (if ((build extW [] { } ["exp/a"] msW).test_boundary_mask.getD 0 []).getD 0 false
          then Behav.boundary
          else if ((build extW [] { } ["exp/a"] msW).test_rest_mask.getD 0 []).getD 0 false
          then Behav.rest
          else gtLabelAt [] ({ } : Config).clip_len
            (nRows ((build extW [] { } ["exp/a"] msW).exp_eeg_list.getD 0 []))
            (["exp/a"].getD 0 "") 0) :=
  ⟨by decide, by decide, by decide, by decide, by decide,
    C1_label_precedence extW [] { } ["exp/a"] msW _ 0 0 rfl (by decide) (by decide)
      (by decide) (by decide) (by decide)⟩

/-! Length bookkeeping for the alignment claim. -/

theorem scOf_refs_len (ext : Ext) (cfg : Config) (ms : List Mat) :
    (scOf ext cfg ms).eegRefs.length = ms.length
    ∧ (scOf ext cfg ms).smoothRefs.length = ms.length := by
  unfold scOf
  cases hs : cfg.smooth
  · rw [sc_state_smooth_false]
    exact ⟨by simp, by simp⟩
  · rw [sc_state_smooth_true]
    exact ⟨by simp, by simp⟩

theorem build_eeg_len (ext : Ext) (gtList : List GTEntry) (cfg : Config)
    (paths : List String) (ms : List Mat) :
    (build ext gtList cfg paths ms).exp_eeg_list.length = ms.length := by
  rw [build_eeg_eq, List.length_map]
  exact (scOf_refs_len ext cfg ms).1

theorem build_amp_len (ext : Ext) (gtList : List GTEntry) (cfg : Config)
    (paths : List String) (ms : List Mat) :
    (build ext gtList cfg paths ms).frame_amp_list.length
      = (build ext gtList cfg paths ms).exp_eeg_list.length := by
  rw [build_frameamp_eq, build_wavraw_eq, build_smooth_eq, build_eeg_eq]
  simp only [List.length_map]
  exact ((scOf_refs_len ext cfg ms).2).trans ((scOf_refs_len ext cfg ms).1).symm

theorem length_flatten_map {α β : Type*} (f : α → List β) (l : List α) :
    (l.map f).flatten.length = (l.map (fun a => (f a).length)).sum := by
  rw [List.length_flatten, List.map_map]
  rfl

theorem sum_map_range_congr (f g : ℕ → ℕ) (n : ℕ) (h : ∀ i, i < n → f i = g i) :
    ((List.range n).map f).sum = ((List.range n).map g).sum := by
  rw [List.map_congr_left (fun a ha => h a (List.mem_range.mp ha))]

theorem build_expidx_len (ext : Ext) (gtList : List GTEntry) (cfg : Config)
    (paths : List String) (ms : List Mat) :
    (build ext gtList cfg paths ms).exp_idx.length
      = ((List.range (build ext gtList cfg paths ms).exp_eeg_list.length).map
          (fun i => nCols ((build ext gtList cfg paths ms).exp_eeg_list.getD i []))).sum := by
  rw [build_expidx_eq, length_flatten_map]
  have h1 : (build ext gtList cfg paths ms).exp_eeg_list.enum.map
        (fun p => (List.replicate (nCols p.2) p.1).length)
      = (build ext gtList cfg paths ms).exp_eeg_list.enum.map (fun p => nCols p.2) := by
    apply List.map_congr_left
    intro p _
    rw [List.length_replicate]
  rw [h1,
    show ((build ext gtList cfg paths ms).exp_eeg_list.enum.map (fun p => nCols p.2))
      = ((build ext gtList cfg paths ms).exp_eeg_list.enum.map Prod.snd).map nCols by
        rw [List.map_map]; rfl,
    List.enum_map_snd, ← map_range_getD_comp nCols _ []]

theorem build_frameidx_len (ext : Ext) (gtList : List GTEntry) (cfg : Config)
    (paths : List String) (ms : List Mat) :
    (build ext gtList cfg paths ms).frame_idx.length
      = ((List.range (build ext gtList cfg paths ms).exp_eeg_list.length).map
          (fun i => nCols ((build ext gtList cfg paths ms).exp_eeg_list.getD i []))).sum := by
  rw [build_frameidx_eq, length_flatten_map]
  have h1 : (build ext gtList cfg paths ms).exp_eeg_list.map
        (fun m => (List.range (nCols m)).length)
      = (build ext gtList cfg paths ms).exp_eeg_list.map nCols := by
    apply List.map_congr_left
    intro m _
    rw [List.length_range]
  rw [h1, ← map_range_getD_comp nCols _ []]

theorem build_ampflat_len (ext : Ext) (gtList : List GTEntry) (cfg : Config)
    (paths : List String) (ms : List Mat)
    (hamp : ∀ i, i < (build ext gtList cfg paths ms).exp_eeg_list.length →
      ((build ext gtList cfg paths ms).frame_amp_list.getD i []).length
        = nCols ((build ext gtList cfg paths ms).exp_eeg_list.getD i [])) :
    (build ext gtList cfg paths ms).frame_amp_list.flatten.length
      = ((List.range (build ext gtList cfg paths ms).exp_eeg_list.length).map
          (fun i => nCols ((build ext gtList cfg paths ms).exp_eeg_list.getD i []))).sum := by
  rw [List.length_flatten,
    show (build ext gtList cfg paths ms).frame_amp_list.map List.length
      = (List.range (build ext gtList cfg paths ms).frame_amp_list.length).map
          (fun i => ((build ext gtList cfg paths ms).frame_amp_list.getD i []).length)
      from (map_range_getD_comp List.length _ []).symm,
    build_amp_len]
  exact sum_map_range_congr _ _ _ hamp

theorem build_behav_len (ext : Ext) (gtList : List GTEntry) (cfg : Config)
    (paths : List String) (ms : List Mat)
    (hK : paths.length = (build ext gtList cfg paths ms).exp_eeg_list.length)
    (hamp : ∀ i, i < (build ext gtList cfg paths ms).exp_eeg_list.length →
      ((build ext gtList cfg paths ms).frame_amp_list.getD i []).length
        = nCols ((build ext gtList cfg paths ms).exp_eeg_list.getD i [])) :
    (build ext gtList cfg paths ms).data_behav_concat.length
      = ((List.range (build ext gtList cfg paths ms).exp_eeg_list.length).map
          (fun i => nCols ((build ext gtList cfg paths ms).exp_eeg_list.getD i []))).sum := by
  rw [build_behavconcat_eq, build_behavlist_eq]
  set A := (build ext gtList cfg paths ms).frame_amp_list with hA
  set E := (build ext gtList cfg paths ms).exp_eeg_list with hE
  unfold boundStageL
  rw [length_flatten_map, restStageL_length, gtStageL_length]
  apply sum_map_range_congr
  intro i hi
  have hiK : i < paths.length := by rw [hK]; exact hi
  rw [if_pos hiK, boundApply_length,
    restStageL_getD _ _ _ i (by rw [gtStageL_length]; exact hi) hiK,
    restApply_length,
    gtStageL_getD _ _ _ _ i hi, gtPassExp_length, List.length_replicate,
    boundMasksOf_getD _ _ _ i hiK, boundaryMaskV_length,
    restMasksOf_getD _ _ _ i hiK, List.length_map, hamp i hi]
  omega

/-- C2: in every completed run the masked feature matrix's frame count and
the three parallel retained-frame metadata arrays' lengths agree exactly;
a pre-mask mismatch is caught by the line-178 assertion and no bundle is
produced. -/
theorem C2_alignment (ext : Ext) (gtList : List GTEntry) (cfg : Config)
    (exps : List ExpData) (b : Bundle)
    (hrun : run ext gtList cfg exps = Option.some b)
    (hamp : ∀ i, i < b.exp_eeg_list.length →
      (b.frame_amp_list.getD i []).length = nCols (b.exp_eeg_list.getD i [])) :
    nCols b.preprocess_data = b.frame_index.length
    ∧ b.frame_index.length = b.experminet_index.length
    ∧ b.experminet_index.length = b.frame_amplitudes.length := by
  obtain ⟨ms, hr, rfl, hass1, hass2⟩ := run_eq_some_elim _ _ _ _ _ hrun
  have hK : (exps.map ExpData.path).length
      = (build ext gtList cfg (exps.map ExpData.path) ms).exp_eeg_list.length := by
    rw [List.length_map, build_eeg_len]
    exact (readLoop_ok_length _ _ _ _ _ hr).symm
  have hFI := build_frameidx_len ext gtList cfg (exps.map ExpData.path) ms
  have hEI := build_expidx_len ext gtList cfg (exps.map ExpData.path) ms
  have hBL := build_behav_len ext gtList cfg (exps.map ExpData.path) ms hK hamp
  have hAF := build_ampflat_len ext gtList cfg (exps.map ExpData.path) ms hamp
  have hmask : (build ext gtList cfg (exps.map ExpData.path) ms).data_mask.length
      = (build ext gtList cfg (exps.map ExpData.path) ms).data_behav_concat.length := by
    rw [build_mask_eq, dataMask_length]
  have hfidx : (build ext gtList cfg (exps.map ExpData.path) ms).frame_index.length
      = ((build ext gtList cfg (exps.map ExpData.path) ms).data_mask.filter
          (fun x => x)).length := by
    rw [build_frameindex_eq, applyMask_length _ _ (by rw [hFI, hmask, hBL])]
  have heidx : (build ext gtList cfg (exps.map ExpData.path) ms).experminet_index.length
      = ((build ext gtList cfg (exps.map ExpData.path) ms).data_mask.filter
          (fun x => x)).length := by
    rw [build_expindex_eq, applyMask_length _ _ (by rw [hEI, hmask, hBL])]
  have hamps : (build ext gtList cfg (exps.map ExpData.path) ms).frame_amplitudes.length
      = ((build ext gtList cfg (exps.map ExpData.path) ms).data_mask.filter
          (fun x => x)).length := by
    rw [build_amps_eq, applyMask_length _ _ (by rw [hAF, hmask, hBL])]
  refine ⟨?_, by rw [hfidx, heidx], by rw [heidx, hamps]⟩
  rw [build_pre_eq, hfidx]
  cases hd : (build ext gtList cfg (exps.map ExpData.path) ms).data_concat with
  | nil =>
    have hS0 : ((build ext gtList cfg (exps.map ExpData.path) ms).data_mask.filter
        (fun x => x)).length = 0 := by
      have h1 := List.length_filter_le (fun x => x)
        (build ext gtList cfg (exps.map ExpData.path) ms).data_mask
      have h2 : (build ext gtList cfg (exps.map ExpData.path) ms).data_mask.length = 0 := by
        rw [hmask, hBL, ← hEI, hass2, hd]
        rfl
      omega
    rw [hS0]
    rfl
  | cons r rest =>
    have hrlen : r.length
        = (build ext gtList cfg (exps.map ExpData.path) ms).data_mask.length := by
      have : nCols (build ext gtList cfg (exps.map ExpData.path) ms).data_concat
          = r.length := by rw [hd]; rfl
      rw [hmask, hBL, ← hEI, hass2, this]
    show nCols (scrubMat ((r :: rest).map (fun row =>
      applyMask row (build ext gtList cfg (exps.map ExpData.path) ms).data_mask))) = _
    have hcols : nCols (scrubMat ((r :: rest).map (fun row =>
        applyMask row (build ext gtList cfg (exps.map ExpData.path) ms).data_mask)))
        = (applyMask r (build ext gtList cfg (exps.map ExpData.path) ms).data_mask).length := by
      simp [scrubMat, nCols]
    rw [hcols, applyMask_length _ _ hrlen]

/-! Shape and content lemmas for the round-trip claim. -/

theorem headD_eq_getD {α : Type*} (l : List (List α)) : l.headD [] = l.getD 0 [] := by
  cases l <;> rfl

theorem nCols_readMat (nElec ti t : ℕ) (e : ExpData) (hnz : 0 < nElec)
    (htabl : e.table.length = nElec) (hcl : ∀ c ∈ e.table, c.length = e.len)
    (hle : t ≤ e.len) :
    nCols (readMat nElec ti t e) = t - ti := by
  unfold nCols readMat
  rw [headD_eq_getD, getD_map_range _ _ _ _ hnz, List.length_take, List.length_drop]
  have h0 : (e.table.getD 0 []).length = e.len := by
    have hlt : 0 < e.table.length := by rw [htabl]; exact hnz
    refine hcl _ ?_
    rw [List.getD_eq_getElem _ _ hlt]
    exact List.getElem_mem hlt
  rw [h0]
  omega

theorem colsOf_length (m : Mat) : (colsOf m).length = nCols m := by
  simp [colsOf]

theorem rectMat_row (m : Mat) (h : rectMat m = true) :
    ∀ r ∈ m, r.length = nCols m := by
  intro r hr
  have := List.all_eq_true.mp h r hr
  exact_mod_cast of_decide_eq_true this

theorem concatCols_nRows (W : List Mat) : nRows (concatCols W) = nRows (W.headD []) := by
  simp [concatCols, nRows]

theorem concatCols_entries (W : List Mat) :
    ∀ r ∈ concatCols W, ∀ x ∈ r, ∃ w ∈ W, ∃ row ∈ w, x ∈ row := by
  intro r hr x hx
  obtain ⟨ri, hri, rfl⟩ := List.mem_map.mp hr
  obtain ⟨row, hrow, hxrow⟩ := List.mem_flatten.mp hx
  obtain ⟨w, hw, rfl⟩ := List.mem_map.mp hrow
  by_cases hlt : ri < w.length
  · refine ⟨w, hw, w.getD ri [], ?_, hxrow⟩
    rw [List.getD_eq_getElem _ _ hlt]
    exact List.getElem_mem hlt
  · rw [List.getD_eq_default _ _ (Nat.le_of_not_lt hlt)] at hxrow
    cases hxrow

theorem concatCols_row_len (W : List Mat) (chan : ℕ)
    (hW : ∀ w ∈ W, rectMat w = true ∧ nRows w = chan)
    (hhead : nRows (W.headD []) = chan) :
    ∀ r ∈ concatCols W, r.length = (W.map nCols).sum := by
  intro r hr
  obtain ⟨ri, hri, rfl⟩ := List.mem_map.mp hr
  have hric : ri < chan := by
    rw [← hhead]
    exact List.mem_range.mp hri
  rw [List.length_flatten, List.map_map]
  congr 1
  apply List.map_congr_left
  intro w hw
  have hrw : ri < w.length := by
    have := (hW w hw).2
    unfold nRows at this
    omega
  show (w.getD ri []).length = nCols w
  rw [List.getD_eq_getElem _ _ hrw]
  exact rectMat_row w (hW w hw).1 _ (List.getElem_mem hrw)

/-- C4: the round-trip scenario — two experiments resolving to 500 and 300
frames, `smooth=False`, `normalize=False`, `mean_center=False`, default
`dump_rest=False`, `no_bounds=False`: the final feature matrix is exactly
the frame-axis concatenation of the raw spectral tensors, of shape
`(num_channels, 800)`, and the experiment-id array is `[0]*500 + [1]*300`.
The spectral tensors (produced by the external wavelet transform) are
assumed rectangular `num_channels × (500|300)` with finite entries. -/
theorem C4_roundtrip (ext : Ext) (gtList : List GTEntry) (cfg : Config)
    (e0 e1 : ExpData) (b : Bundle)
    (hti : cfg.ti = 0) (htf : cfg.tf = Option.none)
    (hsm : cfg.smooth = false) (hnm : cfg.normalize = false) (hmc : cfg.mean_center = false)
    (hdr : cfg.dump_rest = false) (hnb : cfg.no_bounds = false)
    (hnz : 0 < ext.nElec)
    (h500 : e0.len = 500) (h300 : e1.len = 300)
    (htab : ∀ e ∈ [e0, e1], e.table.length = ext.nElec ∧ ∀ c ∈ e.table, c.length = e.len)
    (hrun : run ext gtList cfg [e0, e1] = Option.some b)
    (hwav : ∀ w ∈ b.wav_raw_list, rectMat w = true ∧ nRows w = cfg.num_channels)
    (hcols0 : nCols (b.wav_raw_list.getD 0 []) = 500)
    (hcols1 : nCols (b.wav_raw_list.getD 1 []) = 300)
    (hgood : ∀ w ∈ b.wav_raw_list, ∀ r ∈ w, ∀ x ∈ r, x.isBad = false) :
    b.preprocess_data = concatCols b.wav_raw_list
    ∧ nRows b.preprocess_data = cfg.num_channels
    ∧ nCols b.preprocess_data = 800
    ∧ b.experminet_index = List.replicate 500 0 ++ List.replicate 300 1 := by
  obtain ⟨ms, hr, rfl, hass1, hass2⟩ := run_eq_some_elim _ _ _ _ _ hrun
  rw [hti, htf] at hr
  have hseq : resolveSeq Option.none ([e0, e1].map ExpData.len) = [500, 300] := by
    have hm : [e0, e1].map ExpData.len = [500, 300] := by
      rw [List.map_cons, List.map_cons, List.map_nil, h500, h300]
    rw [hm]
    decide
  have hok := readLoop_ok_char ext.nElec 0 [e0, e1] Option.none (by rw [hseq]; decide)
  have hms : ms = [readMat ext.nElec 0 500 e0, readMat ext.nElec 0 300 e1] := by
    rw [hok, hseq] at hr
    simpa using (Except.ok.inj hr).symm
  have hnCols0 : nCols (readMat ext.nElec 0 500 e0) = 500 := by
    have := nCols_readMat ext.nElec 0 500 e0 hnz (htab e0 (by simp)).1 (htab e0 (by simp)).2
      (by rw [h500])
    simpa using this
  have hnCols1 : nCols (readMat ext.nElec 0 300 e1) = 300 := by
    have := nCols_readMat ext.nElec 0 300 e1 hnz (htab e1 (by simp)).1 (htab e1 (by simp)).2
      (by rw [h300])
    simpa using this
  have hE : (build ext gtList cfg ([e0, e1].map ExpData.path) ms).exp_eeg_list = ms := by
    rw [build_eeg_eq]
    unfold scOf
    rw [hsm, hmc, sc_state_smooth_false]
    show (List.range ms.length).map
        (fun r => (if false then ms.map centerMat else ms).getD r []) = ms
    simp only [show (if false then ms.map centerMat else ms) = ms from rfl]
    exact map_range_getD ms []
  have hWlen : (build ext gtList cfg ([e0, e1].map ExpData.path) ms).wav_raw_list.length
      = 2 := by
    rw [build_wavraw_eq, List.length_map, build_smooth_eq, List.length_map,
      (scOf_refs_len ext cfg ms).2, hms]
    rfl
  have hamp : ∀ i, i < (build ext gtList cfg ([e0, e1].map ExpData.path) ms).exp_eeg_list.length →
      ((build ext gtList cfg ([e0, e1].map ExpData.path) ms).frame_amp_list.getD i []).length
        = nCols ((build ext gtList cfg ([e0, e1].map ExpData.path) ms).exp_eeg_list.getD i []) := by
    intro i hi
    have hi2 : i < 2 := by rw [hE, hms] at hi; simpa using hi
    rcases i with _ | _ | n
    · rw [build_frameamp_eq, getD_map_in _ _ 0 [] [] (by rw [hWlen]; omega),
        List.length_map, colsOf_length, hcols0, hE, hms]
      show 500 = nCols (readMat ext.nElec 0 500 e0)
      rw [hnCols0]
    · rw [build_frameamp_eq, getD_map_in _ _ 1 [] [] (by rw [hWlen]; omega),
        List.length_map, colsOf_length, hcols1, hE, hms]
      show 300 = nCols (readMat ext.nElec 0 300 e1)
      rw [hnCols1]
    · omega
  have hK : (([e0, e1].map ExpData.path)).length
      = (build ext gtList cfg ([e0, e1].map ExpData.path) ms).exp_eeg_list.length := by
    rw [hE, hms]
    rfl
  have hBL := build_behav_len ext gtList cfg ([e0, e1].map ExpData.path) ms hK hamp
  have hEI := build_expidx_len ext gtList cfg ([e0, e1].map ExpData.path) ms
  have hsum : ((List.range (build ext gtList cfg ([e0, e1].map ExpData.path) ms).exp_eeg_list.length).map
      (fun i => nCols ((build ext gtList cfg ([e0, e1].map ExpData.path) ms).exp_eeg_list.getD i []))).sum
      = 800 := by
    rw [hE, hms]
    show ((List.range 2).map (fun i =>
      nCols (([readMat ext.nElec 0 500 e0, readMat ext.nElec 0 300 e1] : List Mat).getD i []))).sum = 800
    rw [show List.range 2 = [0, 1] from rfl]
    simp only [List.map_cons, List.map_nil, List.sum_cons, List.sum_nil]
    show nCols (readMat ext.nElec 0 500 e0) + (nCols (readMat ext.nElec 0 300 e1) + 0) = 800
    rw [hnCols0, hnCols1]
  have hmasklen : (build ext gtList cfg ([e0, e1].map ExpData.path) ms).data_mask.length = 800 := by
    rw [build_mask_eq, dataMask_length, hBL, hsum]
  have hmask_true : ∀ x ∈ (build ext gtList cfg ([e0, e1].map ExpData.path) ms).data_mask,
      x = true := by
    rw [build_mask_eq, hdr, hnb, dataMask_false_false]
    intro x hx
    obtain ⟨l, -, rfl⟩ := List.mem_map.mp hx
    rfl
  have hnorm : (build ext gtList cfg ([e0, e1].map ExpData.path) ms).norm_wav_exp_list
      = (build ext gtList cfg ([e0, e1].map ExpData.path) ms).wav_raw_list := by
    rw [build_normspect_eq, hnm, normStage_false]
    rfl
  have hdc : (build ext gtList cfg ([e0, e1].map ExpData.path) ms).data_concat
      = concatCols ((build ext gtList cfg ([e0, e1].map ExpData.path) ms).wav_raw_list) := by
    rw [build_dataconcat_eq, hnorm]
  have hheadW : nRows ((build ext gtList cfg ([e0, e1].map ExpData.path) ms).wav_raw_list.headD [])
      = cfg.num_channels := by
    have h0 : 0 < (build ext gtList cfg ([e0, e1].map ExpData.path) ms).wav_raw_list.length := by
      rw [hWlen]
      decide
    have hmem : (build ext gtList cfg ([e0, e1].map ExpData.path) ms).wav_raw_list.headD []
        ∈ (build ext gtList cfg ([e0, e1].map ExpData.path) ms).wav_raw_list := by
      rw [headD_eq_getD, List.getD_eq_getElem _ _ h0]
      exact List.getElem_mem h0
    exact (hwav _ hmem).2
  have hrowlen : ∀ r ∈ (build ext gtList cfg ([e0, e1].map ExpData.path) ms).data_concat,
      r.length = 800 := by
    rw [hdc]
    intro r hr
    rw [concatCols_row_len _ cfg.num_channels hwav hheadW r hr,
      show (build ext gtList cfg ([e0, e1].map ExpData.path) ms).wav_raw_list.map nCols
        = (List.range (build ext gtList cfg ([e0, e1].map ExpData.path) ms).wav_raw_list.length).map
            (fun i => nCols ((build ext gtList cfg ([e0, e1].map ExpData.path) ms).wav_raw_list.getD i []))
        from (map_range_getD_comp nCols _ []).symm,
      hWlen, show List.range 2 = [0, 1] from rfl]
    show nCols ((build ext gtList cfg ([e0, e1].map ExpData.path) ms).wav_raw_list.getD 0 [])
        + (nCols ((build ext gtList cfg ([e0, e1].map ExpData.path) ms).wav_raw_list.getD 1 [])
          + 0) = 800
    rw [hcols0, hcols1]
  have hpre : (build ext gtList cfg ([e0, e1].map ExpData.path) ms).preprocess_data
      = (build ext gtList cfg ([e0, e1].map ExpData.path) ms).data_concat := by
    rw [build_pre_eq]
    have hmaprows : (build ext gtList cfg ([e0, e1].map ExpData.path) ms).data_concat.map
        (fun row => applyMask row (build ext gtList cfg ([e0, e1].map ExpData.path) ms).data_mask)
        = (build ext gtList cfg ([e0, e1].map ExpData.path) ms).data_concat.map (fun row => row) := by
      apply List.map_congr_left
      intro row hrow
      exact applyMask_all_true _ _ (by rw [hrowlen row hrow, hmasklen]) hmask_true
    rw [hmaprows, List.map_id_fun']
    · apply scrubMat_id_of_good
      intro r hr x hx
      rw [hdc] at hr
      obtain ⟨w, hw, row, hrow, hxr⟩ := concatCols_entries _ r hr x hx
      exact hgood w hw row hrow x hxr
  refine ⟨?_, ?_, ?_, ?_⟩
  · rw [hpre, hdc]
  · rw [hpre, hdc, concatCols_nRows, hheadW]
  · rw [hpre, ← hass2, hEI, hsum]
  · have hexplen : (build ext gtList cfg ([e0, e1].map ExpData.path) ms).exp_idx.length
        = 800 := by
      rw [hEI, hsum]
    rw [build_expindex_eq,
      applyMask_all_true _ _ (by rw [hexplen, hmasklen]) hmask_true]
    rw [build_expidx_eq, hE, hms]
    show List.replicate (nCols (readMat ext.nElec 0 500 e0)) 0
        ++ (List.replicate (nCols (readMat ext.nElec 0 300 e1)) 1 ++ [])
      = List.replicate 500 0 ++ List.replicate 300 1
    rw [hnCols0, hnCols1, List.append_nil]

set_option maxRecDepth 100000 in
theorem C4_witness :
    run extW [] cfg4 [expA, expB]
      = Option.some (build extW [] cfg4 (List.map ExpData.path [expA, expB]) msAB)
    ∧ ((build extW [] cfg4 (List.map ExpData.path [expA, expB]) msAB).preprocess_data
        = concatCols (build extW [] cfg4 (List.map ExpData.path [expA, expB]) msAB).wav_raw_list
      ∧ nRows (build extW [] cfg4 (List.map ExpData.path [expA, expB]) msAB).preprocess_data
          = cfg4.num_channels
      ∧ nCols (build extW [] cfg4 (List.map ExpData.path [expA, expB]) msAB).preprocess_data = 800
      ∧ (build extW [] cfg4 (List.map ExpData.path [expA, expB]) msAB).experminet_index
          = List.replicate 500 0 ++ List.replicate 300 1) :=
  ⟨rfl,
    C4_roundtrip extW [] cfg4 expA expB _ rfl rfl rfl rfl rfl rfl rfl (by decide)
      (by decide) (by decide) (by decide) rfl (by decide) (by decide) (by decide) (by decide)⟩

theorem C2_witness :
    run extW [] { } [expW] = Option.some (build extW [] { } ["exp/a"] msW)
    ∧ (∀ i, i < (build extW [] { } ["exp/a"] msW).exp_eeg_list.length →
        ((build extW [] { } ["exp/a"] msW).frame_amp_list.getD i []).length
          = nCols ((build extW [] { } ["exp/a"] msW).exp_eeg_list.getD i []))
    ∧ (nCols (build extW [] { } ["exp/a"] msW).preprocess_data
        = (build extW [] { } ["exp/a"] msW).frame_index.length
      ∧ (build extW [] { } ["exp/a"] msW).frame_index.length
        = (build extW [] { } ["exp/a"] msW).experminet_index.length
      ∧ (build extW [] { } ["exp/a"] msW).experminet_index.length
        = (build extW [] { } ["exp/a"] msW).frame_amplitudes.length) :=
  ⟨rfl, by decide, C2_alignment extW [] { } [expW] _ rfl (by decide)⟩

end BehavPre
